import Mathlib

/-!
# Shallow embedding of the MyEcs archetype ECS core (src/ecs.h, src/ecs.c)

The C engine stores a dynamic population of entities in archetype-partitioned,
chunked, column-major storage:

* `ComponentData`        (ecs.h:16)  — field layout of one registered component type;
* `ArchetypeDataChunk`   (ecs.h:21)  — one fixed-capacity slab of rows;
* `Archetype`            (ecs.h:27)  — signature plus its ordered chunk list;
* the sparse index       (ecs.h:36)  — maps entity id to (archetype, chunk, row);
* `World`                (ecs.h:42)  — everything, plus the LIFO free-id stack.

Modelling conventions:

* C machine integers (`id_t` = uint32, `chunk_size_t` = uint32) are modelled as
  `Nat`; no claim depends on 32-bit wrap-around.  The two 8-bit counters
  (`comp_id_t number_of_components`, `arch_id_t number_of_archetypes`, ecs.h:56-57)
  are modelled with an explicit `% 256`, because their wrap-around is observable
  (claim about the 8-bit id limit).
* A malloc'ed C array is modelled as a total function `Nat → Nat` whose values
  beyond the region ever written are irrelevant (C leaves them indeterminate;
  the model returns the seeded/zero value).  Byte buffers for component fields
  are `Nat → Nat` maps from byte offset to byte value.
* The parallel arrays of a `SparseArrayChunk` (ecs.h:36-40) are modelled as
  three curried functions `sub-array index → slot → value`; the C addressing
  `chunks[e / scs].field[e % scs]` is kept verbatim in the operations.
* `world.component_ids` (ecs.h:47) is allocated by the C code but never read or
  written with data anywhere in the repository; the dead buffer is omitted.
* Two ghost fields are carried on `World` purely to *state* properties — the C
  program does not store them and no operation reads them:
  `live` (the ids currently allocated and not yet removed) and `hwm` (the
  high-water mark of `id_stack_top_index`, i.e. how far the seeded prefix of
  the id stack has ever been consumed).
-/

/-- The field layout of one registered component type (ecs.h:16-19).
`number_of_fields` is the length of `field_sizes`. -/
structure ComponentData where
  field_sizes : List Nat
  deriving Repr, DecidableEq

/-- One storage chunk of an archetype (ecs.h:21-25).
`id_dense_array` is the entity-id column (index → id); `component_field_arrays`
maps component id → field index → byte offset → byte value, mirroring the C
`void***` jagged table; `dense_arrays_length` is the current row count. -/
structure ArchetypeDataChunk where
  id_dense_array : Nat → Nat
  component_field_arrays : Nat → Nat → Nat → Nat
  dense_arrays_length : Nat

/-- An archetype (ecs.h:27-34).  `number_of_components` is the length of
`components`; `number_of_chunks` is the length of `chunks`; `archetype_id` is
the archetype's index in `World.archetypes`. -/
structure Archetype where
  components : List Nat
  chunks : List ArchetypeDataChunk
  chunk_size : Nat

/-- The world (ecs.h:42-58).  The three `sparse_*` functions are the parallel
arrays of the `SparseArrayChunk` vector, curried as sub-array index → slot →
value.  `live` and `hwm` are ghost fields (see the header comment). -/
structure World where
  archetypes : List Archetype
  id_stack_ids : Nat → Nat
  id_stack_capacity : Nat
  id_stack_top_index : Nat
  all_components_data : List ComponentData
  sparse_archetypes : Nat → Nat → Nat
  sparse_chunk_indexes : Nat → Nat → Nat
  sparse_dense_indexes : Nat → Nat → Nat
  sparse_array_chunk_size : Nat
  sparse_array_number_of_chunks : Nat
  dense_array_chunk_size : Nat
  number_of_archetypes : Nat
  number_of_components : Nat
  live : List Nat
  hwm : Nat

/-- Pointwise update of a modelled C array: `updf f i v` is `f` with slot `i`
overwritten by `v`. -/
def updf {α : Type} (f : Nat → α) (i : Nat) (v : α) : Nat → α :=
  fun j => if j = i then v else f j

/-- Pointwise update of a two-index modelled C array at `(i, j)`. -/
def updf2 {α : Type} (f : Nat → Nat → α) (i j : Nat) (v : α) : Nat → Nat → α :=
  fun i' j' => if i' = i ∧ j' = j then v else f i' j'

/-- The all-zero chunk: a freshly `archetype_data_chunk_init`-ed chunk
(ecs.c:40-75) has `dense_arrays_length = 0`; its buffers are malloc'ed and
indeterminate in C, modelled as zero. -/
def emptyChunk : ArchetypeDataChunk :=
  { id_dense_array := fun _ => 0
    component_field_arrays := fun _ _ _ => 0
    dense_arrays_length := 0 }

/-- Out-of-bounds default used with `List.getD`; the invariant proofs show
in-bounds access wherever the C program indexes. -/
def emptyArchetype : Archetype :=
  { components := [], chunks := [], chunk_size := 0 }

/-- `archetype_init` with `number_of_chunks = 1`, as called from
`world_add_archetype` (ecs.c:94-128, ecs.c:267-284): the signature list is
copied and one empty chunk is allocated. -/
def archetype_init (comps : List Nat) (chunk_size : Nat) : Archetype :=
  { components := comps, chunks := [emptyChunk], chunk_size := chunk_size }

/-- The archetype at index `a` of `w` (C `world->archetypes[a]`). -/
def archAt (w : World) (a : Nat) : Archetype :=
  w.archetypes.getD a emptyArchetype

/-- The chunk at index `c` of archetype `a` (C `world->archetypes[a].chunks[c]`). -/
def chunkAt (w : World) (a c : Nat) : ArchetypeDataChunk :=
  (archAt w a).chunks.getD c emptyChunk

/-- Sparse-index read of the archetype id of entity `e`
(C `sparse_array_chunks[e / scs].archetypes[e % scs]`). -/
def sparseA (w : World) (e : Nat) : Nat :=
  w.sparse_archetypes (e / w.sparse_array_chunk_size) (e % w.sparse_array_chunk_size)

/-- Sparse-index read of the chunk index of entity `e`. -/
def sparseC (w : World) (e : Nat) : Nat :=
  w.sparse_chunk_indexes (e / w.sparse_array_chunk_size) (e % w.sparse_array_chunk_size)

/-- Sparse-index read of the dense row index of entity `e`. -/
def sparseR (w : World) (e : Nat) : Nat :=
  w.sparse_dense_indexes (e / w.sparse_array_chunk_size) (e % w.sparse_array_chunk_size)

/-- `world_create` (ecs.c:192-226): empty registry and archetype list, id stack
of capacity `sparse_array_chunk_size` seeded with its own indices,
`starting_sparse_array_chunks` pre-allocated sparse sub-arrays (malloc'ed,
indeterminate, modelled as zero). -/
def world_create (dense_array_chunk_size sparse_array_chunk_size
    starting_sparse_array_chunks : Nat) : World :=
  { archetypes := []
    id_stack_ids := fun i => if i < sparse_array_chunk_size then i else 0
    id_stack_capacity := sparse_array_chunk_size
    id_stack_top_index := 0
    all_components_data := []
    sparse_archetypes := fun _ _ => 0
    sparse_chunk_indexes := fun _ _ => 0
    sparse_dense_indexes := fun _ _ => 0
    sparse_array_chunk_size := sparse_array_chunk_size
    sparse_array_number_of_chunks := starting_sparse_array_chunks
    dense_array_chunk_size := dense_array_chunk_size
    number_of_archetypes := 0
    number_of_components := 0
    live := []
    hwm := 0 }

/-- `world_add_component_type` (ecs.c:286-303).  The C code reallocs
`all_components_data` to `number_of_components + 1` entries (keeping the first
`min(old length, n + 1)` records), writes the new record at index
`number_of_components`, and returns the old value of the 8-bit counter, which
then increments with uint8 wrap-around.  `realloc`-then-write is
`take n ++ [new]` whenever the old list has at least `n` entries, which holds
in every state this model produces. -/
def world_add_component_type (w : World) (field_sizes : List Nat) : World × Nat :=
  ({ w with
      all_components_data :=
        w.all_components_data.take w.number_of_components ++ [⟨field_sizes⟩]
      number_of_components := (w.number_of_components + 1) % 256 },
   w.number_of_components)

/-- `world_match_archetype` (ecs.c:248-265): first index `a` below the 8-bit
archetype counter whose `components` list equals `components` (the C compares
the length and then every entry, i.e. list equality). -/
def world_match_archetype (w : World) (components : List Nat) : Option Nat :=
  (w.archetypes.take w.number_of_archetypes).findIdx? (fun ar => ar.components == components)

/-- `world_add_archetype` (ecs.c:267-284): realloc the archetype array to
`number_of_archetypes + 1` entries, init the new archetype with one chunk at
index `number_of_archetypes`, and return the old 8-bit counter value, which
then increments with uint8 wrap-around. -/
def world_add_archetype (w : World) (components : List Nat) : World × Nat :=
  ({ w with
      archetypes :=
        w.archetypes.take w.number_of_archetypes
          ++ [archetype_init components w.dense_array_chunk_size]
      number_of_archetypes := (w.number_of_archetypes + 1) % 256 },
   w.number_of_archetypes)

/-- The row write of `archetype_add_entity` into a chunk with a free slot
(ecs.c:148-149): `ids[length] = entity_id`, then `length` is incremented. -/
def placedChunk (ch : ArchetypeDataChunk) (entity_id : Nat) : ArchetypeDataChunk :=
  { ch with
      id_dense_array := updf ch.id_dense_array ch.dense_arrays_length entity_id
      dense_arrays_length := ch.dense_arrays_length + 1 }

/-- A freshly initialised chunk right after the overflow branch of
`archetype_add_entity` wrote the entity at row 0 (ecs.c:159-168). -/
def freshChunk (entity_id : Nat) : ArchetypeDataChunk :=
  { id_dense_array := updf (fun _ => 0) 0 entity_id
    component_field_arrays := fun _ _ _ => 0
    dense_arrays_length := 1 }

/-- The scan loop of `archetype_add_entity` (ecs.c:146-153): find the first
chunk with a free row, write the entity id at its `dense_arrays_length`, bump
the length, and report `(updated chunk list, chunk index, row index)`; `none`
when every chunk is full. -/
def chunks_place (chunk_size entity_id : Nat) :
    List ArchetypeDataChunk → Option (List ArchetypeDataChunk × Nat × Nat)
  | [] => none
  | ch :: rest =>
    if ch.dense_arrays_length < chunk_size then
      some (placedChunk ch entity_id :: rest, 0, ch.dense_arrays_length)
    else
      match chunks_place chunk_size entity_id rest with
      | some (rest', i, r) => some (ch :: rest', i + 1, r)
      | none => none

/-- `archetype_add_entity` (ecs.c:138-171): place the entity in the first chunk
with spare capacity; if all chunks are full, append a fresh chunk and write the
entity at its row 0.  Returns the updated archetype and the chosen
`(chunk index, row index)`. -/
def archetype_add_entity (ar : Archetype) (entity_id : Nat) : Archetype × Nat × Nat :=
  match chunks_place ar.chunk_size entity_id ar.chunks with
  | some (chunks', i, r) => ({ ar with chunks := chunks' }, i, r)
  | none =>
    ({ ar with chunks := ar.chunks ++ [freshChunk entity_id] }, ar.chunks.length, 0)

/-- The id-stack growth step of `world_add_entity` (ecs.c:307-315): when the
stack is exhausted (`top_index >= capacity`), double the capacity and seed the
new region `[top_index, 2 * capacity)` with its own index values. -/
def id_stack_grow (w : World) : World :=
  if w.id_stack_capacity ≤ w.id_stack_top_index then
    { w with
        id_stack_capacity := 2 * w.id_stack_capacity
        id_stack_ids := fun i =>
          if w.id_stack_top_index ≤ i ∧ i < 2 * w.id_stack_capacity then i
          else w.id_stack_ids i }
  else w

/-- The sparse-array growth step of `world_add_entity` (ecs.c:353-369): if the
target sub-array index is out of range, realloc to exactly one more sub-array
(the loop ecs.c:363-367 initialises the single new sub-array; fresh sub-array
contents are indeterminate in C and never read before being written). -/
def sparse_grow (w : World) (sparse_chunk_index : Nat) : World :=
  if w.sparse_array_number_of_chunks ≤ sparse_chunk_index then
    { w with sparse_array_number_of_chunks := w.sparse_array_number_of_chunks + 1 }
  else w

/-- The pop phase of `world_add_entity` (ecs.c:306-316): grow the stack if
exhausted, read the id at `top_index`, increment `top_index`.  Ghost updates:
the popped id becomes live, and `hwm` records the new high-water mark of
`top_index`. -/
def world_add_entity_pop (w : World) : World × Nat :=
  let w1 := id_stack_grow w
  ({ w1 with
      id_stack_top_index := w1.id_stack_top_index + 1
      live := w1.id_stack_ids w1.id_stack_top_index :: w1.live
      hwm := max w1.hwm (w1.id_stack_top_index + 1) },
   w1.id_stack_ids w1.id_stack_top_index)

/-- The archetype phase of `world_add_entity` (ecs.c:327-351): match the sorted
signature against the existing archetypes or create a new archetype, then
append the entity's row to the matched archetype in place.  Returns the updated
world and the `(archetype id, chunk index, row index)` of the new row. -/
def world_add_entity_place (w : World) (sorted : List Nat) (id : Nat) :
    World × Nat × Nat × Nat :=
  match world_match_archetype w sorted with
  | some a =>
    let pl := archetype_add_entity (archAt w a) id
    ({ w with archetypes := w.archetypes.set a pl.1 }, a, pl.2.1, pl.2.2)
  | none =>
    let wa := world_add_archetype w sorted
    let pl := archetype_add_entity (archAt wa.1 wa.2) id
    ({ wa.1 with archetypes := wa.1.archetypes.set wa.2 pl.1 }, wa.2, pl.2.1, pl.2.2)

/-- The sparse phase of `world_add_entity` (ecs.c:353-376): grow the sparse
sub-array vector if the id's sub-array index is out of range, then record the
`(archetype, chunk, row)` triple at the id's slot. -/
def world_add_entity_sparse (w : World) (id a c r : Nat) : World :=
  let w5 := sparse_grow w (id / w.sparse_array_chunk_size)
  let sci := id / w5.sparse_array_chunk_size
  let sli := id % w5.sparse_array_chunk_size
  { w5 with
      sparse_archetypes := updf2 w5.sparse_archetypes sci sli a
      sparse_chunk_indexes := updf2 w5.sparse_chunk_indexes sci sli c
      sparse_dense_indexes := updf2 w5.sparse_dense_indexes sci sli r }

/-- `world_add_entity` (ecs.c:305-377): pop an id (growing the stack when
exhausted), sort a scratch copy of the component list ascending (the C uses
`qsort` with an ascending comparator on `Nat`-valued ids, so any comparison
sort yields the same list), match or create the archetype, append the row, grow
the sparse index if needed, and record the `(archetype, chunk, row)` triple at
the id's sparse slot. -/
def world_add_entity (w : World) (components : List Nat) : World × Nat :=
  let pop := world_add_entity_pop w
  let pl := world_add_entity_place pop.1 (List.insertionSort (· ≤ ·) components) pop.2
  (world_add_entity_sparse pl.1 pop.2 pl.2.1 pl.2.2.1 pl.2.2.2, pop.2)

/-- One `memcpy` of the swap-pop (ecs.c:439-441): copy the `field_size` bytes
of row `last` over the bytes of row `row` inside one field column. -/
def copy_field (field_size row last : Nat) (col : Nat → Nat) : Nat → Nat :=
  fun off =>
    if row * field_size ≤ off ∧ off < row * field_size + field_size then
      col (last * field_size + (off - row * field_size))
    else col off

/-- The field loop of the swap-pop (ecs.c:437-442) over one component's
columns.  Each iteration touches a distinct field column, so the loop equals
this pointwise description. -/
def copy_fields (sizes : List Nat) (row last : Nat) (cols : Nat → Nat → Nat) :
    Nat → Nat → Nat :=
  fun f =>
    if f < sizes.length then copy_field (sizes.getD f 0) row last (cols f)
    else cols f

/-- The component loop of the swap-pop (ecs.c:434-443).  Each iteration of the
C loop copies, inside the columns of one listed component, the byte blocks of
row `last` over row `row`; blocks of distinct rows are disjoint and distinct
components own distinct columns, so the loop equals this pointwise
description. -/
def copy_components (comps : List Nat) (data : List ComponentData) (row last : Nat)
    (cols : Nat → Nat → Nat → Nat) : Nat → Nat → Nat → Nat :=
  fun comp =>
    if comp ∈ comps then
      copy_fields (data.getD comp ⟨[]⟩).field_sizes row last (cols comp)
    else cols comp

/-- `world_remove_entity` (ecs.c:398-452): push the id back on the free stack,
read the entity's `(archetype, chunk, row)` triple from the sparse index, and
swap-pop inside that chunk: if the row is the last live row, just decrement the
length; otherwise move the last row's id and component bytes into the removed
row, patch the moved entity's sparse row index, and decrement the length.
Ghost update: the id leaves `live`. -/
def world_remove_entity (w : World) (entity_id : Nat) : World :=
  let top := w.id_stack_top_index - 1
  let stack := updf w.id_stack_ids top entity_id
  let a := sparseA w entity_id
  let c := sparseC w entity_id
  let r := sparseR w entity_id
  let ar := archAt w a
  let ch := chunkAt w a c
  let len := ch.dense_arrays_length
  let last := len - 1
  if r = last then
    { w with
        id_stack_ids := stack
        id_stack_top_index := top
        archetypes := w.archetypes.set a
          { ar with chunks := ar.chunks.set c { ch with dense_arrays_length := len - 1 } }
        live := w.live.erase entity_id }
  else
    let last_entity_id := ch.id_dense_array last
    let ch' : ArchetypeDataChunk :=
      { id_dense_array := updf ch.id_dense_array r last_entity_id
        component_field_arrays :=
          copy_components ar.components w.all_components_data r last
            ch.component_field_arrays
        dense_arrays_length := len - 1 }
    { w with
        id_stack_ids := stack
        id_stack_top_index := top
        archetypes := w.archetypes.set a { ar with chunks := ar.chunks.set c ch' }
        sparse_dense_indexes :=
          updf2 w.sparse_dense_indexes
            (last_entity_id / w.sparse_array_chunk_size)
            (last_entity_id % w.sparse_array_chunk_size) r
        live := w.live.erase entity_id }

/-- The field size registered for field `field_index` of component
`component_id` (C `all_components_data[component_id].field_sizes[field_index]`). -/
def fieldSize (w : World) (component_id field_index : Nat) : Nat :=
  ((w.all_components_data.getD component_id ⟨[]⟩).field_sizes).getD field_index 0

/-- The registered field count of component `component_id`
(C `all_components_data[component_id].number_of_fields`). -/
def numFields (w : World) (component_id : Nat) : Nat :=
  (w.all_components_data.getD component_id ⟨[]⟩).field_sizes.length

/-- `world_get_component_field` (ecs.c:454-503).  The returned C pointer
`columns[component_id][field_index] + row * field_size` is modelled by the
coordinates that determine it: the archetype id, the chunk index, and the byte
offset `row * field_size` into the column of `(component_id, field_index)`.
The C function takes a `const World*` and only reads it, so the model is a
pure function and the world is unchanged by construction. -/
def world_get_component_field (w : World) (entity_id component_id field_index : Nat) :
    Option (Nat × Nat × Nat) :=
  if w.sparse_array_number_of_chunks ≤ entity_id / w.sparse_array_chunk_size then
    none
  else
    let a := sparseA w entity_id
    let c := sparseC w entity_id
    let r := sparseR w entity_id
    if component_id ∈ (archAt w a).components then
      if field_index < numFields w component_id then
        some (a, c, r * fieldSize w component_id field_index)
      else none
    else none

/-- `does_archetype_have_components` (ecs.c:379-396): reject when the archetype
has fewer components than requested, else require every requested id to occur
somewhere in the archetype's list. -/
def does_archetype_have_components (ar : Archetype) (comp_ids : List Nat) : Bool :=
  if ar.components.length < comp_ids.length then false
  else comp_ids.all (fun c => ar.components.contains c)

/-- The iterator snapshot (ecs.h:81-85): per matched chunk, one per-requested-
component record holding that component's per-field column table, plus the
parallel list of chunk lengths. -/
structure ComponentIterator where
  component_field_arrays : List (List (Nat → Nat → Nat))
  chunk_lengths : List Nat

/-- `world_get_component_iterator` (ecs.c:506-547): walk the archetypes in id
order (up to the 8-bit counter), keep those whose component list contains every
requested id, and for each of their chunks (in chunk order) emit the requested
components' column tables and the chunk length.  The C two-pass count-then-fill
produces exactly this filter-and-concatenate. -/
def world_get_component_iterator (w : World) (component_ids : List Nat) :
    ComponentIterator :=
  let sel := (w.archetypes.take w.number_of_archetypes).filter
    (fun ar => does_archetype_have_components ar component_ids)
  { component_field_arrays :=
      sel.flatMap (fun ar => ar.chunks.map
        (fun ch => component_ids.map (fun comp => ch.component_field_arrays comp)))
    chunk_lengths :=
      sel.flatMap (fun ar => ar.chunks.map (fun ch => ch.dense_arrays_length)) }

/-- The entity ids stored in the live rows `[0, length)` of one chunk. -/
def chunkIds (ch : ArchetypeDataChunk) : List Nat :=
  (List.range ch.dense_arrays_length).map ch.id_dense_array

/-- The entity ids stored in the live rows of all chunks of one archetype, in
chunk order. -/
def archIds (ar : Archetype) : List Nat :=
  ar.chunks.flatMap chunkIds

/-- The multiset (as a list, in visit order) of entity ids reachable through
the iterator snapshot for request `component_ids`: the live rows of every
chunk the iterator includes. -/
def visibleIds (w : World) (component_ids : List Nat) : List Nat :=
  ((w.archetypes.take w.number_of_archetypes).filter
    (fun ar => does_archetype_have_components ar component_ids)).flatMap archIds

/-! ## Basic lemmas about the modelled array updates -/

theorem updf_self {α : Type} (f : Nat → α) (i : Nat) (v : α) : updf f i v i = v := by
  simp [updf]

theorem updf_ne {α : Type} (f : Nat → α) (i : Nat) (v : α) {j : Nat} (h : j ≠ i) :
    updf f i v j = f j := by
  simp [updf, h]

theorem updf2_self {α : Type} (f : Nat → Nat → α) (i j : Nat) (v : α) :
    updf2 f i j v i j = v := by
  simp [updf2]

theorem updf2_ne {α : Type} (f : Nat → Nat → α) (i j : Nat) (v : α) {i' j' : Nat}
    (h : ¬ (i' = i ∧ j' = j)) : updf2 f i j v i' j' = f i' j' := by
  simp only [updf2, if_neg h]

/-- Distinct entity ids occupy distinct sparse slots: the pair
`(e / s, e % s)` determines `e`. -/
theorem slot_inj {s e e' : Nat} (hdiv : e / s = e' / s)
    (hmod : e % s = e' % s) : e = e' := by
  have h1 := Nat.div_add_mod e s
  have h2 := Nat.div_add_mod e' s
  rw [hdiv, hmod] at h1
  omega

theorem getD_set_self {α : Type} (l : List α) (i : Nat) (v d : α) (h : i < l.length) :
    (l.set i v).getD i d = v := by
  rw [List.getD_eq_getElem _ _ (by simpa using h)]
  exact List.getElem_set_self _

theorem getD_set_ne {α : Type} (l : List α) (i : Nat) (v d : α) {j : Nat} (h : j ≠ i) :
    (l.set i v).getD j d = l.getD j d := by
  by_cases hj : j < l.length
  · rw [List.getD_eq_getElem _ _ (by simpa using hj), List.getD_eq_getElem _ _ hj]
    exact List.getElem_set_ne (Ne.symm h) _
  · rw [List.getD_eq_default _ _ (by simpa using Nat.le_of_not_lt hj),
      List.getD_eq_default _ _ (Nat.le_of_not_lt hj)]

/-! ## First-fit placement (`archetype_add_entity`) -/

/-- `chunks_place` finds the first chunk with spare capacity: if chunk `i` is
the first one with `dense_arrays_length < chunk_size`, the scan stops there,
writes the id at row `dense_arrays_length`, and bumps the length. -/
theorem chunks_place_eq_some (cs e : Nat) :
    ∀ (l : List ArchetypeDataChunk) (i : Nat), i < l.length →
    (l.getD i emptyChunk).dense_arrays_length < cs →
    (∀ j, j < i → ¬ (l.getD j emptyChunk).dense_arrays_length < cs) →
    chunks_place cs e l =
      some (l.set i (placedChunk (l.getD i emptyChunk) e),
        i, (l.getD i emptyChunk).dense_arrays_length)
  | [], i, hi, _, _ => by simp at hi
  | ch :: rest, 0, hi, hfree, _ => by
    simp only [List.getD_cons_zero] at hfree ⊢
    simp [chunks_place, hfree]
  | ch :: rest, i + 1, hi, hfree, hfull => by
    have hch : ¬ ch.dense_arrays_length < cs := by
      simpa using hfull 0 (Nat.succ_pos i)
    simp only [List.getD_cons_succ] at hfree ⊢
    rw [chunks_place, if_neg hch,
      chunks_place_eq_some cs e rest i (by simpa using hi) hfree
        (fun j hj => by simpa using hfull (j + 1) (by omega))]
    simp

/-- When every chunk is full, the scan of `chunks_place` fails. -/
theorem chunks_place_eq_none (cs e : Nat) :
    ∀ (l : List ArchetypeDataChunk),
    (∀ j, j < l.length → ¬ (l.getD j emptyChunk).dense_arrays_length < cs) →
    chunks_place cs e l = none
  | [], _ => rfl
  | ch :: rest, hfull => by
    have hch : ¬ ch.dense_arrays_length < cs := by simpa using hfull 0 (by simp)
    rw [chunks_place, if_neg hch,
      chunks_place_eq_none cs e rest
        (fun j hj => by simpa using hfull (j + 1) (by simpa using hj))]

/-- Concrete worlds used to instantiate theorems: a world with chunk capacity 2
and sparse sub-array size 2, one registered component with a single 1-byte
field, and three entities carrying that component. -/
def exW0 : World := world_create 2 2 1

def exW1 : World := (world_add_component_type exW0 [1]).1

def exW2 : World := (world_add_entity exW1 [0]).1

def exW3 : World := (world_add_entity exW2 [0]).1

def exW4 : World := (world_add_entity exW3 [0]).1

/-- C7 — Archetype append is first-fit: `archetype_add_entity` scans the
chunks in order; if chunk `i` is the first with `length < chunk_size`, the row
goes there (`ids[length] = entity_id`, `length` incremented) and `(i, length)`
is returned; if every chunk is full, a fresh chunk is appended holding the
entity at row 0 and `(old chunk count, 0)` is returned. -/
theorem claim_C7_first_fit (ar : Archetype) (e : Nat) :
    (∀ i, i < ar.chunks.length →
      (ar.chunks.getD i emptyChunk).dense_arrays_length < ar.chunk_size →
      (∀ j, j < i → ¬ (ar.chunks.getD j emptyChunk).dense_arrays_length < ar.chunk_size) →
      archetype_add_entity ar e =
        ({ ar with chunks := ar.chunks.set i (placedChunk (ar.chunks.getD i emptyChunk) e) },
         i, (ar.chunks.getD i emptyChunk).dense_arrays_length))
    ∧ ((∀ j, j < ar.chunks.length →
        ¬ (ar.chunks.getD j emptyChunk).dense_arrays_length < ar.chunk_size) →
      archetype_add_entity ar e =
        ({ ar with chunks := ar.chunks ++ [freshChunk e] },
         ar.chunks.length, 0)) := by
  constructor
  · intro i hi hfree hfull
    rw [archetype_add_entity, chunks_place_eq_some ar.chunk_size e ar.chunks i hi hfree hfull]
  · intro hfull
    rw [archetype_add_entity, chunks_place_eq_none ar.chunk_size e ar.chunks hfull]

theorem claim_C7_witness :
    (0 < (archetype_init [] 2).chunks.length
      ∧ ((archetype_init [] 2).chunks.getD 0 emptyChunk).dense_arrays_length < 2)
    ∧ archetype_add_entity (archetype_init [] 2) 5 =
      ({ archetype_init [] 2 with
          chunks := (archetype_init [] 2).chunks.set 0
            (placedChunk ((archetype_init [] 2).chunks.getD 0 emptyChunk) 5) },
       0, ((archetype_init [] 2).chunks.getD 0 emptyChunk).dense_arrays_length) :=
  ⟨⟨by decide, by decide⟩,
   (claim_C7_first_fit (archetype_init [] 2) 5).1 0 (by decide) (by decide)
     (fun j hj => absurd hj (Nat.not_lt_zero j))⟩

/-- C2 — `world_remove_entity` is an intra-chunk swap-pop.  With `(a, c, r)`
the removed entity's sparse triple and `len` its chunk's row count: if `r` is
the last live row, only that chunk's length is decremented (ids, columns and
the whole sparse index are untouched); otherwise the last row's id and, for
every component of the archetype and every field of it, `field_size` bytes of
the last row are copied into row `r`, the length is decremented, and the moved
entity's sparse row becomes `r` while every sparse archetype/chunk entry stays
unchanged; chunks other than `(a, c)` are never touched, so no row moves
between chunks.  (The id stack, not described here, is pushed in both cases.) -/
theorem claim_C2_swap_pop (w : World) (e a c r : Nat)
    (ha : sparseA w e = a) (hc : sparseC w e = c) (hr : sparseR w e = r)
    (haa : a < w.archetypes.length)
    (hcc : c < (archAt w a).chunks.length)
    (hrr : r < (chunkAt w a c).dense_arrays_length) :
    (r = (chunkAt w a c).dense_arrays_length - 1 →
      (chunkAt (world_remove_entity w e) a c).dense_arrays_length
          = (chunkAt w a c).dense_arrays_length - 1
      ∧ (chunkAt (world_remove_entity w e) a c).id_dense_array
          = (chunkAt w a c).id_dense_array
      ∧ (chunkAt (world_remove_entity w e) a c).component_field_arrays
          = (chunkAt w a c).component_field_arrays
      ∧ (∀ e', sparseA (world_remove_entity w e) e' = sparseA w e'
          ∧ sparseC (world_remove_entity w e) e' = sparseC w e'
          ∧ sparseR (world_remove_entity w e) e' = sparseR w e'))
    ∧ (r ≠ (chunkAt w a c).dense_arrays_length - 1 →
      (chunkAt (world_remove_entity w e) a c).id_dense_array r
          = (chunkAt w a c).id_dense_array ((chunkAt w a c).dense_arrays_length - 1)
      ∧ (∀ j, j ≠ r → (chunkAt (world_remove_entity w e) a c).id_dense_array j
          = (chunkAt w a c).id_dense_array j)
      ∧ (∀ comp, comp ∈ (archAt w a).components → ∀ f, f < numFields w comp →
          ∀ b, b < fieldSize w comp f →
          (chunkAt (world_remove_entity w e) a c).component_field_arrays comp f
              (r * fieldSize w comp f + b)
            = (chunkAt w a c).component_field_arrays comp f
              (((chunkAt w a c).dense_arrays_length - 1) * fieldSize w comp f + b))
      ∧ (chunkAt (world_remove_entity w e) a c).dense_arrays_length
          = (chunkAt w a c).dense_arrays_length - 1
      ∧ sparseR (world_remove_entity w e)
          ((chunkAt w a c).id_dense_array ((chunkAt w a c).dense_arrays_length - 1)) = r
      ∧ (∀ e', sparseA (world_remove_entity w e) e' = sparseA w e'
          ∧ sparseC (world_remove_entity w e) e' = sparseC w e'))
    ∧ (∀ a' c', ¬ (a' = a ∧ c' = c) →
      chunkAt (world_remove_entity w e) a' c' = chunkAt w a' c') := by
  subst ha; subst hc; subst hr
  by_cases hcase :
      sparseR w e = (chunkAt w (sparseA w e) (sparseC w e)).dense_arrays_length - 1
  · have hw : world_remove_entity w e =
        { w with
            id_stack_ids := updf w.id_stack_ids (w.id_stack_top_index - 1) e
            id_stack_top_index := w.id_stack_top_index - 1
            archetypes := w.archetypes.set (sparseA w e)
              { archAt w (sparseA w e) with
                  chunks := (archAt w (sparseA w e)).chunks.set (sparseC w e)
                    { chunkAt w (sparseA w e) (sparseC w e) with
                        dense_arrays_length :=
                          (chunkAt w (sparseA w e) (sparseC w e)).dense_arrays_length - 1 } }
            live := w.live.erase e } := by
      simp only [world_remove_entity]
      rw [if_pos hcase]
    have hchunk : chunkAt (world_remove_entity w e) (sparseA w e) (sparseC w e) =
        { chunkAt w (sparseA w e) (sparseC w e) with
            dense_arrays_length :=
              (chunkAt w (sparseA w e) (sparseC w e)).dense_arrays_length - 1 } := by
      rw [hw]
      show ((w.archetypes.set _ _).getD _ emptyArchetype).chunks.getD _ emptyChunk = _
      rw [getD_set_self _ _ _ _ haa]
      exact getD_set_self _ _ _ _ hcc
    refine ⟨fun _ => ⟨by rw [hchunk], by rw [hchunk], by rw [hchunk], fun e' => ?_⟩,
      fun hne => absurd hcase hne, fun a' c' hne => ?_⟩
    · rw [hw]
      exact ⟨rfl, rfl, rfl⟩
    · rw [hw]
      show ((w.archetypes.set _ _).getD a' emptyArchetype).chunks.getD c' emptyChunk = _
      by_cases haeq : a' = sparseA w e
      · subst haeq
        rw [getD_set_self _ _ _ _ haa]
        have hcne : c' ≠ sparseC w e := fun h => hne ⟨rfl, h⟩
        show ((archAt w (sparseA w e)).chunks.set _ _).getD c' emptyChunk = _
        rw [getD_set_ne _ _ _ _ hcne]
        rfl
      · rw [getD_set_ne _ _ _ _ haeq]
        rfl
  · have hw : world_remove_entity w e =
        { w with
            id_stack_ids := updf w.id_stack_ids (w.id_stack_top_index - 1) e
            id_stack_top_index := w.id_stack_top_index - 1
            archetypes := w.archetypes.set (sparseA w e)
              { archAt w (sparseA w e) with
                  chunks := (archAt w (sparseA w e)).chunks.set (sparseC w e)
                    { id_dense_array :=
                        updf (chunkAt w (sparseA w e) (sparseC w e)).id_dense_array
                          (sparseR w e)
                          ((chunkAt w (sparseA w e) (sparseC w e)).id_dense_array
                            ((chunkAt w (sparseA w e) (sparseC w e)).dense_arrays_length - 1))
                      component_field_arrays :=
                        copy_components (archAt w (sparseA w e)).components
                          w.all_components_data (sparseR w e)
                          ((chunkAt w (sparseA w e) (sparseC w e)).dense_arrays_length - 1)
                          (chunkAt w (sparseA w e) (sparseC w e)).component_field_arrays
                      dense_arrays_length :=
                        (chunkAt w (sparseA w e) (sparseC w e)).dense_arrays_length - 1 } }
            sparse_dense_indexes := updf2 w.sparse_dense_indexes
              (((chunkAt w (sparseA w e) (sparseC w e)).id_dense_array
                  ((chunkAt w (sparseA w e) (sparseC w e)).dense_arrays_length - 1))
                / w.sparse_array_chunk_size)
              (((chunkAt w (sparseA w e) (sparseC w e)).id_dense_array
                  ((chunkAt w (sparseA w e) (sparseC w e)).dense_arrays_length - 1))
                % w.sparse_array_chunk_size)
              (sparseR w e)
            live := w.live.erase e } := by
      simp only [world_remove_entity]
      rw [if_neg hcase]
    have hchunk : chunkAt (world_remove_entity w e) (sparseA w e) (sparseC w e) =
        { id_dense_array :=
            updf (chunkAt w (sparseA w e) (sparseC w e)).id_dense_array
              (sparseR w e)
              ((chunkAt w (sparseA w e) (sparseC w e)).id_dense_array
                ((chunkAt w (sparseA w e) (sparseC w e)).dense_arrays_length - 1))
          component_field_arrays :=
            copy_components (archAt w (sparseA w e)).components
              w.all_components_data (sparseR w e)
              ((chunkAt w (sparseA w e) (sparseC w e)).dense_arrays_length - 1)
              (chunkAt w (sparseA w e) (sparseC w e)).component_field_arrays
          dense_arrays_length :=
            (chunkAt w (sparseA w e) (sparseC w e)).dense_arrays_length - 1 } := by
      rw [hw]
      show ((w.archetypes.set _ _).getD _ emptyArchetype).chunks.getD _ emptyChunk = _
      rw [getD_set_self _ _ _ _ haa]
      exact getD_set_self _ _ _ _ hcc
    refine ⟨fun heq => absurd heq hcase,
      fun _ => ⟨?_, fun j hj => ?_, fun comp hcomp f hf b hb => ?_, by rw [hchunk],
        ?_, fun e' => ?_⟩,
      fun a' c' hne => ?_⟩
    · rw [hchunk]
      exact updf_self _ _ _
    · rw [hchunk]
      exact updf_ne _ _ _ hj
    · rw [hchunk]
      show copy_components _ _ _ _ _ comp f _ = _
      rw [copy_components, if_pos hcomp, copy_fields]
      simp only [fieldSize] at hb ⊢
      rw [if_pos (show f < ((w.all_components_data.getD comp ⟨[]⟩).field_sizes).length from hf)]
      rw [copy_field]
      rw [if_pos ⟨by omega, by omega⟩]
      rw [Nat.add_sub_cancel_left]
    · rw [hw]
      show updf2 _ _ _ _ _ _ = _
      exact updf2_self _ _ _ _
    · rw [hw]
      exact ⟨rfl, rfl⟩
    · rw [hw]
      show ((w.archetypes.set _ _).getD a' emptyArchetype).chunks.getD c' emptyChunk = _
      by_cases haeq : a' = sparseA w e
      · subst haeq
        rw [getD_set_self _ _ _ _ haa]
        have hcne : c' ≠ sparseC w e := fun h => hne ⟨rfl, h⟩
        show ((archAt w (sparseA w e)).chunks.set _ _).getD c' emptyChunk = _
        rw [getD_set_ne _ _ _ _ hcne]
        rfl
      · rw [getD_set_ne _ _ _ _ haeq]
        rfl

theorem claim_C2_witness :
    (chunkAt (world_remove_entity exW4 0) 0 0).id_dense_array 0
        = (chunkAt exW4 0 0).id_dense_array ((chunkAt exW4 0 0).dense_arrays_length - 1)
      ∧ (chunkAt (world_remove_entity exW4 0) 0 0).dense_arrays_length
        = (chunkAt exW4 0 0).dense_arrays_length - 1 :=
  have h := claim_C2_swap_pop exW4 0 0 0 0 (by decide) (by decide) (by decide)
    (by decide) (by decide) (by decide)
  ⟨(h.2.1 (by decide)).1, (h.2.1 (by decide)).2.2.2.1⟩

/-! ## The reachable-state invariant -/

/-- Invariant of every world reachable by legal operations.  Besides the
sparse/dense consistency (`fwd`, its converse `bwd`) it pins down the id
stack's shape: positions `[top_index, hwm)` hold previously freed ids,
positions `[hwm, capacity)` still hold their seeded value, all stack entries
are pairwise distinct and disjoint from the live set, and the sparse sub-array
vector covers every live id as well as `hwm`. -/
structure WInv (w : World) : Prop where
  scs_pos : 0 < w.sparse_array_chunk_size
  dcs_pos : 0 < w.dense_array_chunk_size
  cap_pos : 0 < w.id_stack_capacity
  arch_count : w.number_of_archetypes = w.archetypes.length
  arch_lt : w.archetypes.length < 256
  comp_count : w.number_of_components = w.all_components_data.length
  comp_lt : w.all_components_data.length < 256
  top_le_hwm : w.id_stack_top_index ≤ w.hwm
  hwm_le_cap : w.hwm ≤ w.id_stack_capacity
  seeded : ∀ p, w.hwm ≤ p → p < w.id_stack_capacity → w.id_stack_ids p = p
  freed_lt : ∀ p, w.id_stack_top_index ≤ p → p < w.hwm → w.id_stack_ids p < w.hwm
  freed_cov : ∀ p, w.id_stack_top_index ≤ p → p < w.hwm →
    w.id_stack_ids p / w.sparse_array_chunk_size < w.sparse_array_number_of_chunks
  stack_inj : ∀ p q, w.id_stack_top_index ≤ p → p < w.id_stack_capacity →
    w.id_stack_top_index ≤ q → q < w.id_stack_capacity → p ≠ q →
    w.id_stack_ids p ≠ w.id_stack_ids q
  stack_not_live : ∀ p, w.id_stack_top_index ≤ p → p < w.id_stack_capacity →
    w.id_stack_ids p ∉ w.live
  live_lt_hwm : ∀ e ∈ w.live, e < w.hwm
  hwm_cov : w.hwm / w.sparse_array_chunk_size ≤ w.sparse_array_number_of_chunks
  live_nodup : w.live.Nodup
  live_len : w.live.length = w.id_stack_top_index
  live_cov : ∀ e ∈ w.live, e / w.sparse_array_chunk_size < w.sparse_array_number_of_chunks
  fwd : ∀ e ∈ w.live,
    sparseA w e < w.archetypes.length
    ∧ sparseC w e < (archAt w (sparseA w e)).chunks.length
    ∧ sparseR w e < (chunkAt w (sparseA w e) (sparseC w e)).dense_arrays_length
    ∧ (chunkAt w (sparseA w e) (sparseC w e)).id_dense_array (sparseR w e) = e
  bwd : ∀ a, a < w.archetypes.length → ∀ c, c < (archAt w a).chunks.length →
    ∀ r, r < (chunkAt w a c).dense_arrays_length →
    (chunkAt w a c).id_dense_array r ∈ w.live
    ∧ sparseA w ((chunkAt w a c).id_dense_array r) = a
    ∧ sparseC w ((chunkAt w a c).id_dense_array r) = c
    ∧ sparseR w ((chunkAt w a c).id_dense_array r) = r
  arch_cs : ∀ a, a < w.archetypes.length →
    (archAt w a).chunk_size = w.dense_array_chunk_size
  arch_chunks_pos : ∀ a, a < w.archetypes.length → 0 < (archAt w a).chunks.length
  arch_comps_nodup : ∀ a, a < w.archetypes.length → (archAt w a).components.Nodup
  arch_comps_reg : ∀ a, a < w.archetypes.length →
    ∀ k ∈ (archAt w a).components, k < w.all_components_data.length
  chunk_len_le : ∀ a, a < w.archetypes.length → ∀ c, c < (archAt w a).chunks.length →
    (chunkAt w a c).dense_arrays_length ≤ w.dense_array_chunk_size
  sparse_arch_lt : ∀ i j, w.sparse_archetypes i j < 256

/-- Precondition of a legal `world_add_entity` call: the component list has no
duplicates (spec: duplicates are undefined behaviour), every listed component
is registered (the C indexes `all_components_data` with each one), and a new
archetype is only created while the 8-bit archetype counter can still index it. -/
def LegalAddEntity (w : World) (comps : List Nat) : Prop :=
  comps.Nodup ∧ (∀ k ∈ comps, k < w.all_components_data.length)
  ∧ (world_match_archetype w (List.insertionSort (· ≤ ·) comps) = none →
      w.archetypes.length < 255)

/-- Precondition of a legal `world_add_component_type` call: the 8-bit
component counter can still index the new record. -/
def LegalAddComponentType (w : World) : Prop :=
  w.all_components_data.length < 255

/-- Worlds reachable from `world_create` (with positive chunk sizes) by legal
operations: component registration, entity creation with a legal signature,
and removal of a live entity. -/
inductive Reachable : World → Prop where
  | create : ∀ dcs scs s0, 0 < dcs → 0 < scs → Reachable (world_create dcs scs s0)
  | add_component_type : ∀ w fs, Reachable w → LegalAddComponentType w →
      Reachable (world_add_component_type w fs).1
  | add_entity : ∀ w comps, Reachable w → LegalAddEntity w comps →
      Reachable (world_add_entity w comps).1
  | remove_entity : ∀ w e, Reachable w → e ∈ w.live →
      Reachable (world_remove_entity w e)

/-- A freshly created world satisfies the invariant. -/
theorem winv_create (dcs scs s0 : Nat) (hdcs : 0 < dcs) (hscs : 0 < scs) :
    WInv (world_create dcs scs s0) :=
  { scs_pos := hscs
    dcs_pos := hdcs
    cap_pos := hscs
    arch_count := rfl
    arch_lt := by norm_num [world_create]
    comp_count := rfl
    comp_lt := by norm_num [world_create]
    top_le_hwm := Nat.le_refl 0
    hwm_le_cap := Nat.zero_le _
    seeded := fun p _ hp => by
      simp only [world_create] at hp ⊢
      rw [if_pos hp]
    freed_lt := fun p _ hp => by simp [world_create] at hp
    freed_cov := fun p _ hp => by simp [world_create] at hp
    stack_inj := fun p q _ hp _ hq hpq => by
      simp [world_create] at hp hq ⊢
      simp [if_pos hp, if_pos hq, hpq]
    stack_not_live := fun p _ _ => by simp [world_create]
    live_lt_hwm := fun e he => by simp [world_create] at he
    hwm_cov := by simp [world_create]
    live_nodup := List.nodup_nil
    live_len := rfl
    live_cov := fun e he => by simp [world_create] at he
    fwd := fun e he => by simp [world_create] at he
    bwd := fun a ha => by simp [world_create] at ha
    arch_cs := fun a ha => by simp [world_create] at ha
    arch_chunks_pos := fun a ha => by simp [world_create] at ha
    arch_comps_nodup := fun a ha => by simp [world_create] at ha
    arch_comps_reg := fun a ha => by simp [world_create] at ha
    chunk_len_le := fun a ha => by simp [world_create] at ha
    sparse_arch_lt := fun i j => by norm_num [world_create] }

/-- In an invariant state the component registry append is a plain append. -/
theorem add_component_type_data (w : World) (fs : List Nat) (hw : WInv w) :
    (world_add_component_type w fs).1.all_components_data
      = w.all_components_data ++ [⟨fs⟩] := by
  show w.all_components_data.take w.number_of_components ++ [⟨fs⟩] = _
  rw [hw.comp_count, List.take_length]

/-- Registering a component type preserves the invariant. -/
theorem winv_add_component_type (w : World) (fs : List Nat) (hw : WInv w)
    (hl : LegalAddComponentType w) : WInv (world_add_component_type w fs).1 := by
  have hdata := add_component_type_data w fs hw
  have hl' : w.all_components_data.length < 255 := hl
  have hlen : (world_add_component_type w fs).1.all_components_data.length
      = w.all_components_data.length + 1 := by rw [hdata]; simp
  exact
    { scs_pos := hw.scs_pos
      dcs_pos := hw.dcs_pos
      cap_pos := hw.cap_pos
      arch_count := hw.arch_count
      arch_lt := hw.arch_lt
      comp_count := by
        show (w.number_of_components + 1) % 256 = _
        rw [hlen, hw.comp_count, Nat.mod_eq_of_lt (by omega)]
      comp_lt := by rw [hlen]; omega
      top_le_hwm := hw.top_le_hwm
      hwm_le_cap := hw.hwm_le_cap
      seeded := hw.seeded
      freed_lt := hw.freed_lt
      freed_cov := hw.freed_cov
      stack_inj := hw.stack_inj
      stack_not_live := hw.stack_not_live
      live_lt_hwm := hw.live_lt_hwm
      hwm_cov := hw.hwm_cov
      live_nodup := hw.live_nodup
      live_len := hw.live_len
      live_cov := hw.live_cov
      fwd := hw.fwd
      bwd := hw.bwd
      arch_cs := hw.arch_cs
      arch_chunks_pos := hw.arch_chunks_pos
      arch_comps_nodup := hw.arch_comps_nodup
      arch_comps_reg := fun a ha k hk => by
        rw [hlen]
        exact Nat.lt_succ_of_lt (hw.arch_comps_reg a ha k hk)
      chunk_len_le := hw.chunk_len_le
      sparse_arch_lt := hw.sparse_arch_lt }

/-- Unfolding of `world_remove_entity` in the last-row branch (ecs.c:422-425). -/
theorem world_remove_entity_eq_last (w : World) (e : Nat)
    (hcase : sparseR w e = (chunkAt w (sparseA w e) (sparseC w e)).dense_arrays_length - 1) :
    world_remove_entity w e =
      { w with
          id_stack_ids := updf w.id_stack_ids (w.id_stack_top_index - 1) e
          id_stack_top_index := w.id_stack_top_index - 1
          archetypes := w.archetypes.set (sparseA w e)
            { archAt w (sparseA w e) with
                chunks := (archAt w (sparseA w e)).chunks.set (sparseC w e)
                  { chunkAt w (sparseA w e) (sparseC w e) with
                      dense_arrays_length :=
                        (chunkAt w (sparseA w e) (sparseC w e)).dense_arrays_length - 1 } }
          live := w.live.erase e } := by
  simp only [world_remove_entity]
  rw [if_pos hcase]

/-- Unfolding of `world_remove_entity` in the swap branch (ecs.c:427-451). -/
theorem world_remove_entity_eq_swap (w : World) (e : Nat)
    (hcase :
      ¬ sparseR w e = (chunkAt w (sparseA w e) (sparseC w e)).dense_arrays_length - 1) :
    world_remove_entity w e =
      { w with
          id_stack_ids := updf w.id_stack_ids (w.id_stack_top_index - 1) e
          id_stack_top_index := w.id_stack_top_index - 1
          archetypes := w.archetypes.set (sparseA w e)
            { archAt w (sparseA w e) with
                chunks := (archAt w (sparseA w e)).chunks.set (sparseC w e)
                  { id_dense_array :=
                      updf (chunkAt w (sparseA w e) (sparseC w e)).id_dense_array
                        (sparseR w e)
                        ((chunkAt w (sparseA w e) (sparseC w e)).id_dense_array
                          ((chunkAt w (sparseA w e) (sparseC w e)).dense_arrays_length - 1))
                    component_field_arrays :=
                      copy_components (archAt w (sparseA w e)).components
                        w.all_components_data (sparseR w e)
                        ((chunkAt w (sparseA w e) (sparseC w e)).dense_arrays_length - 1)
                        (chunkAt w (sparseA w e) (sparseC w e)).component_field_arrays
                    dense_arrays_length :=
                      (chunkAt w (sparseA w e) (sparseC w e)).dense_arrays_length - 1 } }
          sparse_dense_indexes := updf2 w.sparse_dense_indexes
            (((chunkAt w (sparseA w e) (sparseC w e)).id_dense_array
                ((chunkAt w (sparseA w e) (sparseC w e)).dense_arrays_length - 1))
              / w.sparse_array_chunk_size)
            (((chunkAt w (sparseA w e) (sparseC w e)).id_dense_array
                ((chunkAt w (sparseA w e) (sparseC w e)).dense_arrays_length - 1))
              % w.sparse_array_chunk_size)
            (sparseR w e)
          live := w.live.erase e } := by
  simp only [world_remove_entity]
  rw [if_neg hcase]

/-- Reading chunks of a world whose archetype list replaced one chunk of one
archetype: the replaced slot reads the new chunk, every other slot is
unchanged, and archetype shapes are untouched. -/
theorem chunkAt_set (w w' : World) (a c : Nat) (X : ArchetypeDataChunk)
    (harch : w'.archetypes = w.archetypes.set a
      { archAt w a with chunks := (archAt w a).chunks.set c X })
    (ha : a < w.archetypes.length) :
    chunkAt w' a c = ((archAt w a).chunks.set c X).getD c emptyChunk
    ∧ (∀ a' c', ¬ (a' = a ∧ c' = c) → chunkAt w' a' c' = chunkAt w a' c')
    ∧ (∀ a', (archAt w' a').components = (archAt w a').components
        ∧ (archAt w' a').chunk_size = (archAt w a').chunk_size
        ∧ (archAt w' a').chunks.length = (archAt w a').chunks.length)
    ∧ w'.archetypes.length = w.archetypes.length := by
  have harchAt : ∀ a', a' ≠ a → archAt w' a' = archAt w a' := by
    intro a' hne
    rw [archAt, harch, getD_set_ne _ _ _ _ hne]
    rfl
  have harchAtA : archAt w' a =
      { archAt w a with chunks := (archAt w a).chunks.set c X } := by
    rw [archAt, harch, getD_set_self _ _ _ _ ha]
  refine ⟨?_, ?_, ?_, ?_⟩
  · rw [chunkAt, harchAtA]
  · intro a' c' hne
    by_cases haeq : a' = a
    · subst haeq
      have hcne : c' ≠ c := fun h => hne ⟨rfl, h⟩
      rw [chunkAt, harchAtA, chunkAt]
      show ((archAt w a').chunks.set c X).getD c' emptyChunk = _
      rw [getD_set_ne _ _ _ _ hcne]
    · rw [chunkAt, harchAt a' haeq, chunkAt]
  · intro a'
    by_cases haeq : a' = a
    · subst haeq
      rw [harchAtA]
      refine ⟨rfl, rfl, ?_⟩
      show ((archAt w a').chunks.set c X).length = _
      rw [List.length_set]
    · rw [harchAt a' haeq]
      exact ⟨rfl, rfl, rfl⟩
  · rw [harch, List.length_set]

/-- Removing a live entity preserves the invariant. -/
theorem winv_remove_entity (w : World) (e : Nat) (hw : WInv w) (he : e ∈ w.live) :
    WInv (world_remove_entity w e) := by
  obtain ⟨haa, hcc, hrr, hid⟩ := hw.fwd e he
  have htlh := hw.top_le_hwm
  have hhlc := hw.hwm_le_cap
  have htop1 : 1 ≤ w.id_stack_top_index := by
    have h1 : 0 < w.live.length := List.length_pos_of_mem he
    have h2 := hw.live_len
    omega
  have hmem' : ∀ z : Nat, z ∈ w.live.erase e ↔ z ≠ e ∧ z ∈ w.live :=
    fun z => hw.live_nodup.mem_erase_iff
  have hlen' : (w.live.erase e).length = w.live.length - 1 := List.length_erase_of_mem he
  have hseed' : ∀ p, w.hwm ≤ p → p < w.id_stack_capacity →
      updf w.id_stack_ids (w.id_stack_top_index - 1) e p = p := by
    intro p hp hpc
    rw [updf_ne _ _ _ (by omega : p ≠ w.id_stack_top_index - 1)]
    exact hw.seeded p hp hpc
  have hfreed' : ∀ p, w.id_stack_top_index - 1 ≤ p → p < w.hwm →
      updf w.id_stack_ids (w.id_stack_top_index - 1) e p < w.hwm := by
    intro p hp hph
    by_cases hpe : p = w.id_stack_top_index - 1
    · subst hpe
      rw [updf_self]
      exact hw.live_lt_hwm e he
    · rw [updf_ne _ _ _ hpe]
      exact hw.freed_lt p (by omega) hph
  have hfreedcov' : ∀ p, w.id_stack_top_index - 1 ≤ p → p < w.hwm →
      updf w.id_stack_ids (w.id_stack_top_index - 1) e p / w.sparse_array_chunk_size
        < w.sparse_array_number_of_chunks := by
    intro p hp hph
    by_cases hpe : p = w.id_stack_top_index - 1
    · subst hpe
      rw [updf_self]
      exact hw.live_cov e he
    · rw [updf_ne _ _ _ hpe]
      exact hw.freed_cov p (by omega) hph
  have hinj' : ∀ p q, w.id_stack_top_index - 1 ≤ p → p < w.id_stack_capacity →
      w.id_stack_top_index - 1 ≤ q → q < w.id_stack_capacity → p ≠ q →
      updf w.id_stack_ids (w.id_stack_top_index - 1) e p
        ≠ updf w.id_stack_ids (w.id_stack_top_index - 1) e q := by
    intro p q hp hpc hq hqc hpq
    by_cases hpe : p = w.id_stack_top_index - 1
    · subst hpe
      rw [updf_self, updf_ne _ _ _ (Ne.symm hpq)]
      intro hcon
      exact hw.stack_not_live q (by omega) hqc (hcon ▸ he)
    · rw [updf_ne _ _ _ hpe]
      by_cases hqe : q = w.id_stack_top_index - 1
      · subst hqe
        rw [updf_self]
        intro hcon
        exact hw.stack_not_live p (by omega) hpc (hcon ▸ he)
      · rw [updf_ne _ _ _ hqe]
        exact hw.stack_inj p q (by omega) hpc (by omega) hqc hpq
  have hnotlive' : ∀ p, w.id_stack_top_index - 1 ≤ p → p < w.id_stack_capacity →
      updf w.id_stack_ids (w.id_stack_top_index - 1) e p ∉ w.live.erase e := by
    intro p hp hpc hcon
    by_cases hpe : p = w.id_stack_top_index - 1
    · subst hpe
      rw [updf_self] at hcon
      exact ((hmem' e).1 hcon).1 rfl
    · rw [updf_ne _ _ _ hpe] at hcon
      exact hw.stack_not_live p (by omega) hpc ((hmem' _).1 hcon).2
  by_cases hcase :
      sparseR w e = (chunkAt w (sparseA w e) (sparseC w e)).dense_arrays_length - 1
  · -- last-row branch: only the chunk length shrinks
    have heq := world_remove_entity_eq_last w e hcase
    obtain ⟨hXc, hXother, hXshape, hXlen⟩ :=
      chunkAt_set w (world_remove_entity w e) (sparseA w e) (sparseC w e) _
        (by rw [heq]) haa
    have hXc' : chunkAt (world_remove_entity w e) (sparseA w e) (sparseC w e) =
        { chunkAt w (sparseA w e) (sparseC w e) with
            dense_arrays_length :=
              (chunkAt w (sparseA w e) (sparseC w e)).dense_arrays_length - 1 } := by
      rw [hXc, getD_set_self _ _ _ _ hcc]
    have hL : (world_remove_entity w e).live = w.live.erase e := by rw [heq]
    have hS : (world_remove_entity w e).id_stack_ids =
        updf w.id_stack_ids (w.id_stack_top_index - 1) e := by rw [heq]
    have hT : (world_remove_entity w e).id_stack_top_index =
        w.id_stack_top_index - 1 := by rw [heq]
    have hC : (world_remove_entity w e).id_stack_capacity = w.id_stack_capacity := by
      rw [heq]
    have hH : (world_remove_entity w e).hwm = w.hwm := by rw [heq]
    have hscs : (world_remove_entity w e).sparse_array_chunk_size =
        w.sparse_array_chunk_size := by rw [heq]
    have hcnt : (world_remove_entity w e).sparse_array_number_of_chunks =
        w.sparse_array_number_of_chunks := by rw [heq]
    have hdcs : (world_remove_entity w e).dense_array_chunk_size =
        w.dense_array_chunk_size := by rw [heq]
    have hnarch : (world_remove_entity w e).number_of_archetypes =
        w.number_of_archetypes := by rw [heq]
    have hncomp : (world_remove_entity w e).number_of_components =
        w.number_of_components := by rw [heq]
    have hdata : (world_remove_entity w e).all_components_data =
        w.all_components_data := by rw [heq]
    have hsA : ∀ z, sparseA (world_remove_entity w e) z = sparseA w z := by
      intro z
      rw [sparseA, sparseA, hscs]
      have : (world_remove_entity w e).sparse_archetypes = w.sparse_archetypes := by
        rw [heq]
      rw [this]
    have hsC : ∀ z, sparseC (world_remove_entity w e) z = sparseC w z := by
      intro z
      rw [sparseC, sparseC, hscs]
      have : (world_remove_entity w e).sparse_chunk_indexes = w.sparse_chunk_indexes := by
        rw [heq]
      rw [this]
    have hsR : ∀ z, sparseR (world_remove_entity w e) z = sparseR w z := by
      intro z
      rw [sparseR, sparseR, hscs]
      have : (world_remove_entity w e).sparse_dense_indexes = w.sparse_dense_indexes := by
        rw [heq]
      rw [this]
    refine
      { scs_pos := by rw [hscs]; exact hw.scs_pos
        dcs_pos := by rw [hdcs]; exact hw.dcs_pos
        cap_pos := by rw [hC]; exact hw.cap_pos
        arch_count := by rw [hnarch, hXlen]; exact hw.arch_count
        arch_lt := by rw [hXlen]; exact hw.arch_lt
        comp_count := by rw [hncomp, hdata]; exact hw.comp_count
        comp_lt := by rw [hdata]; exact hw.comp_lt
        top_le_hwm := by rw [hT, hH]; omega
        hwm_le_cap := by rw [hH, hC]; exact hhlc
        seeded := by rw [hS, hH, hC]; exact hseed'
        freed_lt := by rw [hS, hT, hH]; exact hfreed'
        freed_cov := by rw [hS, hT, hH, hscs, hcnt]; exact hfreedcov'
        stack_inj := by rw [hS, hT, hC]; exact hinj'
        stack_not_live := by rw [hS, hT, hC, hL]; exact hnotlive'
        live_lt_hwm := by
          rw [hL, hH]
          intro z hz
          exact hw.live_lt_hwm z ((hmem' z).1 hz).2
        hwm_cov := by rw [hH, hscs, hcnt]; exact hw.hwm_cov
        live_nodup := by rw [hL]; exact hw.live_nodup.erase e
        live_len := by rw [hL, hT, hlen', hw.live_len]
        live_cov := by
          rw [hL, hscs, hcnt]
          intro z hz
          exact hw.live_cov z ((hmem' z).1 hz).2
        fwd := ?_
        bwd := ?_
        arch_cs := by
          intro a ha
          rw [hXlen] at ha
          rw [(hXshape a).2.1, hdcs]
          exact hw.arch_cs a ha
        arch_chunks_pos := by
          intro a ha
          rw [hXlen] at ha
          rw [(hXshape a).2.2]
          exact hw.arch_chunks_pos a ha
        arch_comps_nodup := by
          intro a ha
          rw [hXlen] at ha
          rw [(hXshape a).1]
          exact hw.arch_comps_nodup a ha
        arch_comps_reg := by
          intro a ha k hk
          rw [hXlen] at ha
          rw [(hXshape a).1] at hk
          rw [hdata]
          exact hw.arch_comps_reg a ha k hk
        chunk_len_le := ?_
        sparse_arch_lt := by
          have : (world_remove_entity w e).sparse_archetypes = w.sparse_archetypes := by
            rw [heq]
          rw [this]
          exact hw.sparse_arch_lt }
    · -- fwd
      intro z hz
      rw [hL] at hz
      obtain ⟨hzne, hzlive⟩ := (hmem' z).1 hz
      obtain ⟨hza, hzc, hzr, hzid⟩ := hw.fwd z hzlive
      rw [hsA, hsC, hsR, hXlen]
      by_cases hsame : sparseA w z = sparseA w e ∧ sparseC w z = sparseC w e
      · obtain ⟨hsa, hsc⟩ := hsame
        rw [hsa, hsc] at hzc hzr hzid
        have hzr' : sparseR w z ≠ sparseR w e := by
          intro hcon
          rw [hcon] at hzid
          rw [hid] at hzid
          exact hzne hzid.symm
        have h3 : sparseR w z ≠
            (chunkAt w (sparseA w e) (sparseC w e)).dense_arrays_length - 1 := by
          rw [← hcase]; exact hzr'
        rw [hsa, hsc, hXc']
        refine ⟨haa, ?_, ?_, hzid⟩
        · rw [(hXshape (sparseA w e)).2.2]
          exact hzc
        · show sparseR w z <
            (chunkAt w (sparseA w e) (sparseC w e)).dense_arrays_length - 1
          omega
      · rw [hXother _ _ hsame]
        refine ⟨hza, ?_, hzr, hzid⟩
        rw [(hXshape (sparseA w z)).2.2]
        exact hzc
    · -- bwd
      intro a ha c hc r hr
      rw [hXlen] at ha
      rw [(hXshape a).2.2] at hc
      by_cases hsame : a = sparseA w e ∧ c = sparseC w e
      · obtain ⟨rfl, rfl⟩ := hsame
        rw [hXc'] at hr
        have hr' : r <
            (chunkAt w (sparseA w e) (sparseC w e)).dense_arrays_length - 1 := hr
        obtain ⟨hzl, hza, hzc, hzr⟩ := hw.bwd _ haa _ hcc r (by omega)
        have hzne : (chunkAt w (sparseA w e) (sparseC w e)).id_dense_array r ≠ e := by
          intro hcon
          rw [hcon] at hzr
          omega
        have hids' : (chunkAt (world_remove_entity w e) (sparseA w e)
            (sparseC w e)).id_dense_array =
            (chunkAt w (sparseA w e) (sparseC w e)).id_dense_array := by rw [hXc']
        rw [hids', hL, hsA, hsC, hsR]
        exact ⟨(hmem' _).2 ⟨hzne, hzl⟩, hza, hzc, hzr⟩
      · rw [hXother _ _ hsame] at hr ⊢
        obtain ⟨hzl, hza, hzc, hzr⟩ := hw.bwd a ha c hc r hr
        have hzne : (chunkAt w a c).id_dense_array r ≠ e := by
          intro hcon
          rw [hcon] at hza hzc
          exact hsame ⟨hza ▸ rfl, hzc ▸ rfl⟩
        rw [hL, hsA, hsC, hsR]
        exact ⟨(hmem' _).2 ⟨hzne, hzl⟩, hza, hzc, hzr⟩
    · -- chunk_len_le
      intro a ha c hc
      rw [hXlen] at ha
      rw [(hXshape a).2.2] at hc
      rw [hdcs]
      by_cases hsame : a = sparseA w e ∧ c = sparseC w e
      · obtain ⟨rfl, rfl⟩ := hsame
        have hle := hw.chunk_len_le _ haa _ hcc
        have hgoal : (chunkAt (world_remove_entity w e) (sparseA w e)
            (sparseC w e)).dense_arrays_length =
            (chunkAt w (sparseA w e) (sparseC w e)).dense_arrays_length - 1 := by
          rw [hXc']
        rw [hgoal]
        omega
      · rw [hXother _ _ hsame]
        exact hw.chunk_len_le a ha c hc
  · -- swap branch: the last row moves into the removed row
    have hlen1 : 1 ≤ (chunkAt w (sparseA w e) (sparseC w e)).dense_arrays_length := by
      omega
    obtain ⟨hylive, hya, hyc, hyr⟩ := hw.bwd _ haa _ hcc
      ((chunkAt w (sparseA w e) (sparseC w e)).dense_arrays_length - 1) (by omega)
    have hyne : (chunkAt w (sparseA w e) (sparseC w e)).id_dense_array
        ((chunkAt w (sparseA w e) (sparseC w e)).dense_arrays_length - 1) ≠ e := by
      intro hcon
      rw [hcon] at hyr
      exact hcase hyr
    have heq := world_remove_entity_eq_swap w e hcase
    obtain ⟨hXc, hXother, hXshape, hXlen⟩ :=
      chunkAt_set w (world_remove_entity w e) (sparseA w e) (sparseC w e) _
        (by rw [heq]) haa
    have hXc' : chunkAt (world_remove_entity w e) (sparseA w e) (sparseC w e) =
        { id_dense_array :=
            updf (chunkAt w (sparseA w e) (sparseC w e)).id_dense_array (sparseR w e)
              ((chunkAt w (sparseA w e) (sparseC w e)).id_dense_array
                ((chunkAt w (sparseA w e) (sparseC w e)).dense_arrays_length - 1))
          component_field_arrays :=
            copy_components (archAt w (sparseA w e)).components w.all_components_data
              (sparseR w e)
              ((chunkAt w (sparseA w e) (sparseC w e)).dense_arrays_length - 1)
              (chunkAt w (sparseA w e) (sparseC w e)).component_field_arrays
          dense_arrays_length :=
            (chunkAt w (sparseA w e) (sparseC w e)).dense_arrays_length - 1 } := by
      rw [hXc, getD_set_self _ _ _ _ hcc]
    have hL : (world_remove_entity w e).live = w.live.erase e := by rw [heq]
    have hS : (world_remove_entity w e).id_stack_ids =
        updf w.id_stack_ids (w.id_stack_top_index - 1) e := by rw [heq]
    have hT : (world_remove_entity w e).id_stack_top_index =
        w.id_stack_top_index - 1 := by rw [heq]
    have hC : (world_remove_entity w e).id_stack_capacity = w.id_stack_capacity := by
      rw [heq]
    have hH : (world_remove_entity w e).hwm = w.hwm := by rw [heq]
    have hscs : (world_remove_entity w e).sparse_array_chunk_size =
        w.sparse_array_chunk_size := by rw [heq]
    have hcnt : (world_remove_entity w e).sparse_array_number_of_chunks =
        w.sparse_array_number_of_chunks := by rw [heq]
    have hdcs : (world_remove_entity w e).dense_array_chunk_size =
        w.dense_array_chunk_size := by rw [heq]
    have hnarch : (world_remove_entity w e).number_of_archetypes =
        w.number_of_archetypes := by rw [heq]
    have hncomp : (world_remove_entity w e).number_of_components =
        w.number_of_components := by rw [heq]
    have hdata : (world_remove_entity w e).all_components_data =
        w.all_components_data := by rw [heq]
    have hsA : ∀ z, sparseA (world_remove_entity w e) z = sparseA w z := by
      intro z
      rw [sparseA, sparseA, hscs]
      have : (world_remove_entity w e).sparse_archetypes = w.sparse_archetypes := by
        rw [heq]
      rw [this]
    have hsC : ∀ z, sparseC (world_remove_entity w e) z = sparseC w z := by
      intro z
      rw [sparseC, sparseC, hscs]
      have : (world_remove_entity w e).sparse_chunk_indexes = w.sparse_chunk_indexes := by
        rw [heq]
      rw [this]
    have hSD : (world_remove_entity w e).sparse_dense_indexes =
        updf2 w.sparse_dense_indexes
          (((chunkAt w (sparseA w e) (sparseC w e)).id_dense_array
              ((chunkAt w (sparseA w e) (sparseC w e)).dense_arrays_length - 1))
            / w.sparse_array_chunk_size)
          (((chunkAt w (sparseA w e) (sparseC w e)).id_dense_array
              ((chunkAt w (sparseA w e) (sparseC w e)).dense_arrays_length - 1))
            % w.sparse_array_chunk_size)
          (sparseR w e) := by rw [heq]
    have hsR : ∀ z, z ≠ (chunkAt w (sparseA w e) (sparseC w e)).id_dense_array
          ((chunkAt w (sparseA w e) (sparseC w e)).dense_arrays_length - 1) →
        sparseR (world_remove_entity w e) z = sparseR w z := by
      intro z hz
      rw [sparseR, sparseR, hscs, hSD]
      refine updf2_ne _ _ _ _ ?_
      rintro ⟨h1, h2⟩
      exact hz (slot_inj h1 h2)
    have hsRy : sparseR (world_remove_entity w e)
        ((chunkAt w (sparseA w e) (sparseC w e)).id_dense_array
          ((chunkAt w (sparseA w e) (sparseC w e)).dense_arrays_length - 1))
        = sparseR w e := by
      rw [sparseR, hscs, hSD]
      exact updf2_self _ _ _ _
    refine
      { scs_pos := by rw [hscs]; exact hw.scs_pos
        dcs_pos := by rw [hdcs]; exact hw.dcs_pos
        cap_pos := by rw [hC]; exact hw.cap_pos
        arch_count := by rw [hnarch, hXlen]; exact hw.arch_count
        arch_lt := by rw [hXlen]; exact hw.arch_lt
        comp_count := by rw [hncomp, hdata]; exact hw.comp_count
        comp_lt := by rw [hdata]; exact hw.comp_lt
        top_le_hwm := by rw [hT, hH]; omega
        hwm_le_cap := by rw [hH, hC]; exact hhlc
        seeded := by rw [hS, hH, hC]; exact hseed'
        freed_lt := by rw [hS, hT, hH]; exact hfreed'
        freed_cov := by rw [hS, hT, hH, hscs, hcnt]; exact hfreedcov'
        stack_inj := by rw [hS, hT, hC]; exact hinj'
        stack_not_live := by rw [hS, hT, hC, hL]; exact hnotlive'
        live_lt_hwm := by
          rw [hL, hH]
          intro z hz
          exact hw.live_lt_hwm z ((hmem' z).1 hz).2
        hwm_cov := by rw [hH, hscs, hcnt]; exact hw.hwm_cov
        live_nodup := by rw [hL]; exact hw.live_nodup.erase e
        live_len := by rw [hL, hT, hlen', hw.live_len]
        live_cov := by
          rw [hL, hscs, hcnt]
          intro z hz
          exact hw.live_cov z ((hmem' z).1 hz).2
        fwd := ?_
        bwd := ?_
        arch_cs := by
          intro a ha
          rw [hXlen] at ha
          rw [(hXshape a).2.1, hdcs]
          exact hw.arch_cs a ha
        arch_chunks_pos := by
          intro a ha
          rw [hXlen] at ha
          rw [(hXshape a).2.2]
          exact hw.arch_chunks_pos a ha
        arch_comps_nodup := by
          intro a ha
          rw [hXlen] at ha
          rw [(hXshape a).1]
          exact hw.arch_comps_nodup a ha
        arch_comps_reg := by
          intro a ha k hk
          rw [hXlen] at ha
          rw [(hXshape a).1] at hk
          rw [hdata]
          exact hw.arch_comps_reg a ha k hk
        chunk_len_le := ?_
        sparse_arch_lt := by
          have : (world_remove_entity w e).sparse_archetypes = w.sparse_archetypes := by
            rw [heq]
          rw [this]
          exact hw.sparse_arch_lt }
    · -- fwd
      intro z hz
      rw [hL] at hz
      obtain ⟨hzne, hzlive⟩ := (hmem' z).1 hz
      obtain ⟨hza, hzc, hzr, hzid⟩ := hw.fwd z hzlive
      rw [hsA, hsC, hXlen]
      by_cases hzy : z = (chunkAt w (sparseA w e) (sparseC w e)).id_dense_array
          ((chunkAt w (sparseA w e) (sparseC w e)).dense_arrays_length - 1)
      · rw [hzy, hya, hyc, hsRy, hXc']
        refine ⟨haa, ?_, ?_, ?_⟩
        · rw [(hXshape (sparseA w e)).2.2]
          exact hcc
        · show sparseR w e <
            (chunkAt w (sparseA w e) (sparseC w e)).dense_arrays_length - 1
          omega
        · show updf (chunkAt w (sparseA w e) (sparseC w e)).id_dense_array
              (sparseR w e) _ (sparseR w e) = _
          exact updf_self _ _ _
      · rw [hsR z hzy]
        by_cases hsame : sparseA w z = sparseA w e ∧ sparseC w z = sparseC w e
        · obtain ⟨hsa, hsc⟩ := hsame
          rw [hsa, hsc] at hzc hzr hzid
          have hzrne : sparseR w z ≠ sparseR w e := by
            intro hcon
            rw [hcon] at hzid
            rw [hid] at hzid
            exact hzne hzid.symm
          have hzrnl : sparseR w z ≠
              (chunkAt w (sparseA w e) (sparseC w e)).dense_arrays_length - 1 := by
            intro hcon
            rw [hcon] at hzid
            exact hzy hzid.symm
          rw [hsa, hsc, hXc']
          refine ⟨haa, ?_, ?_, ?_⟩
          · rw [(hXshape (sparseA w e)).2.2]
            exact hzc
          · show sparseR w z <
              (chunkAt w (sparseA w e) (sparseC w e)).dense_arrays_length - 1
            omega
          · show updf (chunkAt w (sparseA w e) (sparseC w e)).id_dense_array
                (sparseR w e) _ (sparseR w z) = z
            rw [updf_ne _ _ _ hzrne]
            exact hzid
        · rw [hXother _ _ hsame]
          refine ⟨hza, ?_, hzr, hzid⟩
          rw [(hXshape (sparseA w z)).2.2]
          exact hzc
    · -- bwd
      intro a ha c hc r hrow
      rw [hXlen] at ha
      rw [(hXshape a).2.2] at hc
      by_cases hsame : a = sparseA w e ∧ c = sparseC w e
      · obtain ⟨rfl, rfl⟩ := hsame
        rw [hXc'] at hrow
        have hr' : r <
            (chunkAt w (sparseA w e) (sparseC w e)).dense_arrays_length - 1 := hrow
        by_cases hre : r = sparseR w e
        · subst hre
          have hidsr : (chunkAt (world_remove_entity w e) (sparseA w e)
              (sparseC w e)).id_dense_array (sparseR w e) =
              (chunkAt w (sparseA w e) (sparseC w e)).id_dense_array
                ((chunkAt w (sparseA w e) (sparseC w e)).dense_arrays_length - 1) := by
            rw [hXc']
            exact updf_self _ _ _
          rw [hidsr, hL, hsA, hsC, hsRy]
          exact ⟨(hmem' _).2 ⟨hyne, hylive⟩, hya, hyc, rfl⟩
        · have hidsr : (chunkAt (world_remove_entity w e) (sparseA w e)
              (sparseC w e)).id_dense_array r =
              (chunkAt w (sparseA w e) (sparseC w e)).id_dense_array r := by
            rw [hXc']
            exact updf_ne _ _ _ hre
          obtain ⟨hzl, hza2, hzc2, hzr2⟩ := hw.bwd _ haa _ hcc r (by omega)
          have hzne2 : (chunkAt w (sparseA w e) (sparseC w e)).id_dense_array r ≠ e := by
            intro hcon
            rw [hcon] at hzr2
            exact hre hzr2.symm
          have hzny : (chunkAt w (sparseA w e) (sparseC w e)).id_dense_array r ≠
              (chunkAt w (sparseA w e) (sparseC w e)).id_dense_array
                ((chunkAt w (sparseA w e) (sparseC w e)).dense_arrays_length - 1) := by
            intro hcon
            rw [hcon] at hzr2
            rw [hyr] at hzr2
            omega
          rw [hidsr, hL, hsA, hsC, hsR _ hzny]
          exact ⟨(hmem' _).2 ⟨hzne2, hzl⟩, hza2, hzc2, hzr2⟩
      · rw [hXother _ _ hsame] at hrow ⊢
        obtain ⟨hzl, hza2, hzc2, hzr2⟩ := hw.bwd a ha c hc r hrow
        have hzne2 : (chunkAt w a c).id_dense_array r ≠ e := by
          intro hcon
          rw [hcon] at hza2 hzc2
          exact hsame ⟨hza2 ▸ rfl, hzc2 ▸ rfl⟩
        have hzny : (chunkAt w a c).id_dense_array r ≠
            (chunkAt w (sparseA w e) (sparseC w e)).id_dense_array
              ((chunkAt w (sparseA w e) (sparseC w e)).dense_arrays_length - 1) := by
          intro hcon
          rw [hcon] at hza2 hzc2
          rw [hya] at hza2
          rw [hyc] at hzc2
          exact hsame ⟨hza2 ▸ rfl, hzc2 ▸ rfl⟩
        rw [hL, hsA, hsC, hsR _ hzny]
        exact ⟨(hmem' _).2 ⟨hzne2, hzl⟩, hza2, hzc2, hzr2⟩
    · -- chunk_len_le
      intro a ha c hc
      rw [hXlen] at ha
      rw [(hXshape a).2.2] at hc
      rw [hdcs]
      by_cases hsame : a = sparseA w e ∧ c = sparseC w e
      · obtain ⟨rfl, rfl⟩ := hsame
        have hle := hw.chunk_len_le _ haa _ hcc
        have hgoal : (chunkAt (world_remove_entity w e) (sparseA w e)
            (sparseC w e)).dense_arrays_length =
            (chunkAt w (sparseA w e) (sparseC w e)).dense_arrays_length - 1 := by
          rw [hXc']
        rw [hgoal]
        omega
      · rw [hXother _ _ hsame]
        exact hw.chunk_len_le a ha c hc

/-- Full characterisation of `archetype_add_entity`: the signature and chunk
capacity are untouched, the chunk list grows by at most one chunk, the chosen
row is the new last row of the chosen chunk and holds the entity id, and every
other row and chunk is unchanged. -/
theorem archetype_add_entity_spec (ar : Archetype) (id : Nat) :
    (archetype_add_entity ar id).1.components = ar.components
    ∧ (archetype_add_entity ar id).1.chunk_size = ar.chunk_size
    ∧ (ar.chunks.length ≤ (archetype_add_entity ar id).1.chunks.length
        ∧ (archetype_add_entity ar id).1.chunks.length ≤ ar.chunks.length + 1)
    ∧ (archetype_add_entity ar id).2.1 < (archetype_add_entity ar id).1.chunks.length
    ∧ ((archetype_add_entity ar id).1.chunks.getD (archetype_add_entity ar id).2.1
        emptyChunk).dense_arrays_length = (archetype_add_entity ar id).2.2 + 1
    ∧ ((archetype_add_entity ar id).1.chunks.getD (archetype_add_entity ar id).2.1
        emptyChunk).id_dense_array (archetype_add_entity ar id).2.2 = id
    ∧ (∀ j, j ≠ (archetype_add_entity ar id).2.2 →
        ((archetype_add_entity ar id).1.chunks.getD (archetype_add_entity ar id).2.1
          emptyChunk).id_dense_array j
        = (ar.chunks.getD (archetype_add_entity ar id).2.1 emptyChunk).id_dense_array j)
    ∧ (∀ c', c' ≠ (archetype_add_entity ar id).2.1 →
        (archetype_add_entity ar id).1.chunks.getD c' emptyChunk
          = ar.chunks.getD c' emptyChunk)
    ∧ (0 < ar.chunk_size →
        ((archetype_add_entity ar id).1.chunks.getD (archetype_add_entity ar id).2.1
          emptyChunk).dense_arrays_length ≤ ar.chunk_size)
    ∧ ((archetype_add_entity ar id).2.1 < ar.chunks.length →
        (archetype_add_entity ar id).2.2
          = (ar.chunks.getD (archetype_add_entity ar id).2.1 emptyChunk).dense_arrays_length)
    ∧ (¬ (archetype_add_entity ar id).2.1 < ar.chunks.length →
        (archetype_add_entity ar id).2.1 = ar.chunks.length
        ∧ (archetype_add_entity ar id).2.2 = 0) := by
  rcases hfi : ar.chunks.findIdx?
      (fun ch => decide (ch.dense_arrays_length < ar.chunk_size)) with _ | i
  · -- every chunk is full: a fresh chunk is appended
    have hall : ∀ j, j < ar.chunks.length →
        ¬ (ar.chunks.getD j emptyChunk).dense_arrays_length < ar.chunk_size := by
      intro j hj
      have := (List.findIdx?_eq_none_iff.1 hfi) (ar.chunks.getD j emptyChunk)
        (by rw [List.getD_eq_getElem _ _ hj]; exact ar.chunks.getElem_mem hj)
      simpa using this
    have heq : archetype_add_entity ar id =
        ({ ar with chunks := ar.chunks ++ [freshChunk id] }, ar.chunks.length, 0) := by
      rw [archetype_add_entity, chunks_place_eq_none ar.chunk_size id ar.chunks hall]
    rw [heq]
    dsimp only
    have hgetc : (ar.chunks ++ [freshChunk id]).getD ar.chunks.length emptyChunk
        = freshChunk id := by
      rw [List.getD_append_right _ _ _ _ (Nat.le_refl _), Nat.sub_self]
      rfl
    refine ⟨rfl, rfl, ⟨by simp, by simp⟩, by simp, ?_, ?_, ?_, ?_, ?_, ?_, ?_⟩
    · rw [hgetc]; rfl
    · rw [hgetc]
      show updf (fun _ => 0) 0 id 0 = id
      exact updf_self _ _ _
    · intro j hj
      rw [hgetc]
      show updf (fun _ => 0) 0 id j = _
      rw [updf_ne _ _ _ hj]
      rw [List.getD_eq_default _ _ (Nat.le_refl _)]
      rfl
    · intro c' hc'
      rcases Nat.lt_or_ge c' ar.chunks.length with h | h
      · rw [List.getD_append _ _ _ _ h]
      · have h' : ar.chunks.length < c' := Nat.lt_of_le_of_ne h (Ne.symm hc')
        rw [List.getD_eq_default _ _ (by simpa using h'),
          List.getD_eq_default _ _ (Nat.le_of_lt h')]
    · intro hcs
      rw [hgetc]
      exact hcs
    · intro hcon
      exact absurd hcon (Nat.lt_irrefl _)
    · intro _
      exact ⟨rfl, rfl⟩
  · -- chunk i is the first with room
    obtain ⟨hi, hidx⟩ := List.findIdx?_eq_some_iff_findIdx_eq.1 hfi
    have hfree : (ar.chunks.getD i emptyChunk).dense_arrays_length < ar.chunk_size := by
      have := ((List.findIdx_eq hi).1 hidx).1
      rw [List.getD_eq_getElem _ _ hi]
      simpa using this
    have hfull : ∀ j, j < i →
        ¬ (ar.chunks.getD j emptyChunk).dense_arrays_length < ar.chunk_size := by
      intro j hj
      have := ((List.findIdx_eq hi).1 hidx).2 j hj
      rw [List.getD_eq_getElem _ _ (Nat.lt_trans hj hi)]
      simpa using this
    have heq : archetype_add_entity ar id =
        ({ ar with chunks := ar.chunks.set i (placedChunk (ar.chunks.getD i emptyChunk) id) },
         i, (ar.chunks.getD i emptyChunk).dense_arrays_length) := by
      rw [archetype_add_entity, chunks_place_eq_some ar.chunk_size id ar.chunks i hi hfree hfull]
    rw [heq]
    dsimp only
    have hgetc : (ar.chunks.set i
        (placedChunk (ar.chunks.getD i emptyChunk) id)).getD i emptyChunk
        = placedChunk (ar.chunks.getD i emptyChunk) id :=
      getD_set_self _ _ _ _ hi
    refine ⟨rfl, rfl, ⟨by simp, by simp⟩, by simpa using hi, ?_, ?_, ?_, ?_, ?_, ?_, ?_⟩
    · rw [hgetc]; rfl
    · rw [hgetc]; exact updf_self _ _ _
    · intro j hj
      rw [hgetc]
      show updf (ar.chunks.getD i emptyChunk).id_dense_array
        (ar.chunks.getD i emptyChunk).dense_arrays_length id j = _
      rw [updf_ne _ _ _ hj]
    · intro c' hc'
      exact getD_set_ne _ _ _ _ hc'
    · intro _
      rw [hgetc]
      show (ar.chunks.getD i emptyChunk).dense_arrays_length + 1 ≤ ar.chunk_size
      omega
    · intro _
      rfl
    · intro hcon
      exact absurd hi hcon

/-- Facts established by the pop phase of `world_add_entity` on an invariant
world: everything but the id stack and the ghosts is unchanged, the popped id
is fresh (not live, below the new high-water mark, coverable by growing the
sparse vector at most once), and the remaining stack again satisfies the stack
clauses of the invariant. -/
structure PopSpec (w wp : World) (id : Nat) : Prop where
  arch_eq : wp.archetypes = w.archetypes
  data_eq : wp.all_components_data = w.all_components_data
  narch_eq : wp.number_of_archetypes = w.number_of_archetypes
  ncomp_eq : wp.number_of_components = w.number_of_components
  sa_eq : wp.sparse_archetypes = w.sparse_archetypes
  sc_eq : wp.sparse_chunk_indexes = w.sparse_chunk_indexes
  sd_eq : wp.sparse_dense_indexes = w.sparse_dense_indexes
  scs_eq : wp.sparse_array_chunk_size = w.sparse_array_chunk_size
  cnt_eq : wp.sparse_array_number_of_chunks = w.sparse_array_number_of_chunks
  dcs_eq : wp.dense_array_chunk_size = w.dense_array_chunk_size
  live_eq : wp.live = id :: w.live
  id_fresh : id ∉ w.live
  id_lt_hwm : id < wp.hwm
  id_cov : id / w.sparse_array_chunk_size ≤ w.sparse_array_number_of_chunks
  cap_pos : 0 < wp.id_stack_capacity
  top_le_hwm : wp.id_stack_top_index ≤ wp.hwm
  hwm_le_cap : wp.hwm ≤ wp.id_stack_capacity
  seeded : ∀ p, wp.hwm ≤ p → p < wp.id_stack_capacity → wp.id_stack_ids p = p
  freed_lt : ∀ p, wp.id_stack_top_index ≤ p → p < wp.hwm → wp.id_stack_ids p < wp.hwm
  freed_cov : ∀ p, wp.id_stack_top_index ≤ p → p < wp.hwm →
    wp.id_stack_ids p / w.sparse_array_chunk_size < w.sparse_array_number_of_chunks
  stack_inj : ∀ p q, wp.id_stack_top_index ≤ p → p < wp.id_stack_capacity →
    wp.id_stack_top_index ≤ q → q < wp.id_stack_capacity → p ≠ q →
    wp.id_stack_ids p ≠ wp.id_stack_ids q
  stack_not_live : ∀ p, wp.id_stack_top_index ≤ p → p < wp.id_stack_capacity →
    wp.id_stack_ids p ∉ wp.live
  live_lt_hwm : ∀ z ∈ wp.live, z < wp.hwm
  hwm_step : wp.hwm = w.hwm ∨ (wp.hwm = w.hwm + 1 ∧ id = w.hwm)
  live_nodup : wp.live.Nodup
  live_len : wp.live.length = wp.id_stack_top_index

/-- The pop phase satisfies `PopSpec`. -/
theorem pop_spec (w : World) (hw : WInv w) :
    PopSpec w (world_add_entity_pop w).1 (world_add_entity_pop w).2 := by
  have htlh := hw.top_le_hwm
  have hhlc := hw.hwm_le_cap
  by_cases hg : w.id_stack_capacity ≤ w.id_stack_top_index
  · -- growth: top = capacity = hwm, stack doubles and is reseeded above top
    have htc : w.id_stack_top_index = w.id_stack_capacity := by omega
    have hth : w.id_stack_top_index = w.hwm := by omega
    have hgeq : id_stack_grow w =
        { w with
            id_stack_capacity := 2 * w.id_stack_capacity
            id_stack_ids := fun i =>
              if w.id_stack_top_index ≤ i ∧ i < 2 * w.id_stack_capacity then i
              else w.id_stack_ids i } := by
      rw [id_stack_grow, if_pos hg]
    have hmax : max w.hwm (w.id_stack_top_index + 1) = w.hwm + 1 := by omega
    have hpe : world_add_entity_pop w =
        ({ w with
            id_stack_capacity := 2 * w.id_stack_capacity
            id_stack_ids := fun i =>
              if w.id_stack_top_index ≤ i ∧ i < 2 * w.id_stack_capacity then i
              else w.id_stack_ids i
            id_stack_top_index := w.id_stack_top_index + 1
            live := w.id_stack_top_index :: w.live
            hwm := w.hwm + 1 },
         w.id_stack_top_index) := by
      rw [world_add_entity_pop, hgeq]
      have hcap2 : w.id_stack_top_index < 2 * w.id_stack_capacity := by
        have := hw.cap_pos
        omega
      have hid : (if w.id_stack_top_index ≤ w.id_stack_top_index
          ∧ w.id_stack_top_index < 2 * w.id_stack_capacity then w.id_stack_top_index
          else w.id_stack_ids w.id_stack_top_index) = w.id_stack_top_index := by
        rw [if_pos ⟨Nat.le_refl _, hcap2⟩]
      simp only [hid, hmax]
    rw [hpe]
    refine
      { arch_eq := rfl, data_eq := rfl, narch_eq := rfl, ncomp_eq := rfl
        sa_eq := rfl, sc_eq := rfl, sd_eq := rfl, scs_eq := rfl, cnt_eq := rfl
        dcs_eq := rfl, live_eq := rfl
        id_fresh := ?_, id_lt_hwm := ?_, id_cov := ?_, cap_pos := ?_
        top_le_hwm := ?_, hwm_le_cap := ?_, seeded := ?_, freed_lt := ?_
        freed_cov := ?_, stack_inj := ?_, stack_not_live := ?_
        live_lt_hwm := ?_, hwm_step := ?_, live_nodup := ?_, live_len := ?_ }
    · intro hcon
      have := hw.live_lt_hwm _ hcon
      omega
    · show w.id_stack_top_index < w.hwm + 1
      omega
    · show w.id_stack_top_index / w.sparse_array_chunk_size ≤ _
      rw [hth]
      exact hw.hwm_cov
    · show 0 < 2 * w.id_stack_capacity
      have := hw.cap_pos
      omega
    · show w.id_stack_top_index + 1 ≤ w.hwm + 1
      omega
    · show w.hwm + 1 ≤ 2 * w.id_stack_capacity
      have := hw.cap_pos
      omega
    · intro p hp hpc
      show (if w.id_stack_top_index ≤ p ∧ p < 2 * w.id_stack_capacity then p
        else w.id_stack_ids p) = p
      replace hp : w.hwm + 1 ≤ p := hp
      replace hpc : p < 2 * w.id_stack_capacity := hpc
      rw [if_pos ⟨by omega, hpc⟩]
    · intro p hp hph
      replace hp : w.id_stack_top_index + 1 ≤ p := hp
      replace hph : p < w.hwm + 1 := hph
      show (if w.id_stack_top_index ≤ p ∧ p < 2 * w.id_stack_capacity then p
        else w.id_stack_ids p) < w.hwm + 1
      omega
    · intro p hp hph
      replace hp : w.id_stack_top_index + 1 ≤ p := hp
      replace hph : p < w.hwm + 1 := hph
      omega
    · intro p q hp hpc hq hqc hpq
      replace hp : w.id_stack_top_index + 1 ≤ p := hp
      replace hpc : p < 2 * w.id_stack_capacity := hpc
      replace hq : w.id_stack_top_index + 1 ≤ q := hq
      replace hqc : q < 2 * w.id_stack_capacity := hqc
      show (if w.id_stack_top_index ≤ p ∧ p < 2 * w.id_stack_capacity then p
          else w.id_stack_ids p)
        ≠ (if w.id_stack_top_index ≤ q ∧ q < 2 * w.id_stack_capacity then q
          else w.id_stack_ids q)
      rw [if_pos ⟨by omega, hpc⟩, if_pos ⟨by omega, hqc⟩]
      exact hpq
    · intro p hp hpc
      replace hp : w.id_stack_top_index + 1 ≤ p := hp
      replace hpc : p < 2 * w.id_stack_capacity := hpc
      show (if w.id_stack_top_index ≤ p ∧ p < 2 * w.id_stack_capacity then p
        else w.id_stack_ids p) ∉ w.id_stack_top_index :: w.live
      rw [if_pos ⟨by omega, hpc⟩]
      intro hcon
      rcases List.mem_cons.1 hcon with h | h
      · omega
      · have := hw.live_lt_hwm _ h
        omega
    · intro z hz
      rcases List.mem_cons.1 hz with h | h
      · subst h
        show w.id_stack_top_index < w.hwm + 1
        omega
      · have := hw.live_lt_hwm _ h
        show z < w.hwm + 1
        omega
    · right
      exact ⟨rfl, hth⟩
    · refine List.Nodup.cons ?_ hw.live_nodup
      intro hcon
      have := hw.live_lt_hwm _ hcon
      omega
    · show (w.id_stack_top_index :: w.live).length = w.id_stack_top_index + 1
      rw [List.length_cons, hw.live_len]
  · -- no growth: the id comes off the existing stack
    push_neg at hg
    have hgeq : id_stack_grow w = w := by
      rw [id_stack_grow, if_neg (by omega)]
    have hfresh : w.id_stack_ids w.id_stack_top_index ∉ w.live :=
      hw.stack_not_live _ (Nat.le_refl _) hg
    by_cases hth : w.id_stack_top_index < w.hwm
    · -- recycled id from the freed region
      have hmax : max w.hwm (w.id_stack_top_index + 1) = w.hwm := by omega
      have hpe : world_add_entity_pop w =
          ({ w with
              id_stack_top_index := w.id_stack_top_index + 1
              live := w.id_stack_ids w.id_stack_top_index :: w.live
              hwm := w.hwm },
           w.id_stack_ids w.id_stack_top_index) := by
        rw [world_add_entity_pop, hgeq]
        simp only [hmax]
      have hidlt : w.id_stack_ids w.id_stack_top_index < w.hwm :=
        hw.freed_lt _ (Nat.le_refl _) hth
      have hidcov := hw.freed_cov _ (Nat.le_refl _) hth
      rw [hpe]
      refine
        { arch_eq := rfl, data_eq := rfl, narch_eq := rfl, ncomp_eq := rfl
          sa_eq := rfl, sc_eq := rfl, sd_eq := rfl, scs_eq := rfl, cnt_eq := rfl
          dcs_eq := rfl, live_eq := rfl
          id_fresh := hfresh
          id_lt_hwm := hidlt
          id_cov := Nat.le_of_lt hidcov
          cap_pos := hw.cap_pos
          top_le_hwm := by show w.id_stack_top_index + 1 ≤ w.hwm; omega
          hwm_le_cap := hhlc
          seeded := fun p hp hpc => hw.seeded p hp hpc
          freed_lt := ?_, freed_cov := ?_, stack_inj := ?_
          stack_not_live := ?_, live_lt_hwm := ?_
          hwm_step := Or.inl rfl
          live_nodup := List.Nodup.cons hfresh hw.live_nodup
          live_len := by
            show (_ :: w.live).length = w.id_stack_top_index + 1
            rw [List.length_cons, hw.live_len] }
      · intro p hp hph
        replace hp : w.id_stack_top_index + 1 ≤ p := hp
        exact hw.freed_lt p (by omega) hph
      · intro p hp hph
        replace hp : w.id_stack_top_index + 1 ≤ p := hp
        exact hw.freed_cov p (by omega) hph
      · intro p q hp hpc hq hqc hpq
        replace hp : w.id_stack_top_index + 1 ≤ p := hp
        replace hq : w.id_stack_top_index + 1 ≤ q := hq
        exact hw.stack_inj p q (by omega) hpc (by omega) hqc hpq
      · intro p hp hpc hcon
        replace hp : w.id_stack_top_index + 1 ≤ p := hp
        rcases List.mem_cons.1 hcon with h | h
        · exact hw.stack_inj p w.id_stack_top_index (by omega) hpc (Nat.le_refl _) hg
            (by omega) h
        · exact hw.stack_not_live p (by omega) hpc h
      · intro z hz
        rcases List.mem_cons.1 hz with h | h
        · subst h
          exact hidlt
        · exact hw.live_lt_hwm _ h
    · -- seeded id: top = hwm, the id is the next unused value
      have hth' : w.id_stack_top_index = w.hwm := by omega
      have hmax : max w.hwm (w.id_stack_top_index + 1) = w.hwm + 1 := by omega
      have hidseed : w.id_stack_ids w.id_stack_top_index = w.id_stack_top_index :=
        hw.seeded _ (by omega) hg
      have hpe : world_add_entity_pop w =
          ({ w with
              id_stack_top_index := w.id_stack_top_index + 1
              live := w.id_stack_ids w.id_stack_top_index :: w.live
              hwm := w.hwm + 1 },
           w.id_stack_ids w.id_stack_top_index) := by
        rw [world_add_entity_pop, hgeq]
        simp only [hmax]
      rw [hpe]
      refine
        { arch_eq := rfl, data_eq := rfl, narch_eq := rfl, ncomp_eq := rfl
          sa_eq := rfl, sc_eq := rfl, sd_eq := rfl, scs_eq := rfl, cnt_eq := rfl
          dcs_eq := rfl, live_eq := rfl
          id_fresh := hfresh
          id_lt_hwm := by rw [hidseed]; show _ < w.hwm + 1; omega
          id_cov := by rw [hidseed, hth']; exact hw.hwm_cov
          cap_pos := hw.cap_pos
          top_le_hwm := by show w.id_stack_top_index + 1 ≤ w.hwm + 1; omega
          hwm_le_cap := by show w.hwm + 1 ≤ w.id_stack_capacity; omega
          seeded := ?_, freed_lt := ?_, freed_cov := ?_, stack_inj := ?_
          stack_not_live := ?_, live_lt_hwm := ?_
          hwm_step := Or.inr ⟨rfl, by rw [hidseed, hth']⟩
          live_nodup := List.Nodup.cons hfresh hw.live_nodup
          live_len := by
            show (_ :: w.live).length = w.id_stack_top_index + 1
            rw [List.length_cons, hw.live_len] }
      · intro p hp hpc
        replace hp : w.hwm + 1 ≤ p := hp
        exact hw.seeded p (by omega) hpc
      · intro p hp hph
        replace hp : w.id_stack_top_index + 1 ≤ p := hp
        replace hph : p < w.hwm + 1 := hph
        have hps : w.id_stack_ids p = p := hw.seeded p (by omega) (by omega)
        show w.id_stack_ids p < w.hwm + 1
        rw [hps]
        omega
      · intro p hp hph
        replace hp : w.id_stack_top_index + 1 ≤ p := hp
        replace hph : p < w.hwm + 1 := hph
        have hps : w.id_stack_ids p = p := hw.seeded p (by omega) (by omega)
        rw [hps]
        have hple : p ≤ w.hwm := by omega
        have h1 : p / w.sparse_array_chunk_size ≤ w.hwm / w.sparse_array_chunk_size :=
          Nat.div_le_div_right hple
        have h2 := hw.hwm_cov
        have h3 : p = w.hwm := by omega
        rw [h3]
        rcases Nat.lt_or_ge (w.hwm / w.sparse_array_chunk_size)
            w.sparse_array_number_of_chunks with h | h
        · exact h
        · exfalso
          omega
      · intro p q hp hpc hq hqc hpq
        replace hp : w.id_stack_top_index + 1 ≤ p := hp
        replace hq : w.id_stack_top_index + 1 ≤ q := hq
        exact hw.stack_inj p q (by omega) hpc (by omega) hqc hpq
      · intro p hp hpc hcon
        replace hp : w.id_stack_top_index + 1 ≤ p := hp
        rcases List.mem_cons.1 hcon with h | h
        · exact hw.stack_inj p w.id_stack_top_index (by omega) hpc (Nat.le_refl _) hg
            (by omega) h
        · exact hw.stack_not_live p (by omega) hpc h
      · intro z hz
        rcases List.mem_cons.1 hz with h | h
        · subst h
          rw [hidseed]
          show w.id_stack_top_index < w.hwm + 1
          omega
        · have := hw.live_lt_hwm _ h
          show z < w.hwm + 1
          omega

theorem archAt_oob (v : World) (a : Nat) (h : v.archetypes.length ≤ a) :
    archAt v a = emptyArchetype := by
  rw [archAt, List.getD_eq_default _ _ h]

theorem chunkAt_oob (v : World) (a c : Nat) (h : (archAt v a).chunks.length ≤ c) :
    chunkAt v a c = emptyChunk := by
  rw [chunkAt, List.getD_eq_default _ _ h]

/-- The chunk count after `archetype_add_entity`: unchanged when the row fits
in an existing chunk, one more when a chunk is appended. -/
theorem archetype_add_entity_chunks_length (ar : Archetype) (id : Nat) :
    ((archetype_add_entity ar id).2.1 < ar.chunks.length →
      (archetype_add_entity ar id).1.chunks.length = ar.chunks.length)
    ∧ (¬ (archetype_add_entity ar id).2.1 < ar.chunks.length →
      (archetype_add_entity ar id).1.chunks.length = ar.chunks.length + 1) := by
  rcases hfi : ar.chunks.findIdx?
      (fun ch => decide (ch.dense_arrays_length < ar.chunk_size)) with _ | i
  · have hall : ∀ j, j < ar.chunks.length →
        ¬ (ar.chunks.getD j emptyChunk).dense_arrays_length < ar.chunk_size := by
      intro j hj
      have := (List.findIdx?_eq_none_iff.1 hfi) (ar.chunks.getD j emptyChunk)
        (by rw [List.getD_eq_getElem _ _ hj]; exact ar.chunks.getElem_mem hj)
      simpa using this
    rw [archetype_add_entity, chunks_place_eq_none ar.chunk_size id ar.chunks hall]
    dsimp only
    exact ⟨fun h => absurd h (Nat.lt_irrefl _), fun _ => by simp⟩
  · obtain ⟨hi, hidx⟩ := List.findIdx?_eq_some_iff_findIdx_eq.1 hfi
    have hfree : (ar.chunks.getD i emptyChunk).dense_arrays_length < ar.chunk_size := by
      have := ((List.findIdx_eq hi).1 hidx).1
      rw [List.getD_eq_getElem _ _ hi]
      simpa using this
    have hfull : ∀ j, j < i →
        ¬ (ar.chunks.getD j emptyChunk).dense_arrays_length < ar.chunk_size := by
      intro j hj
      have := ((List.findIdx_eq hi).1 hidx).2 j hj
      rw [List.getD_eq_getElem _ _ (Nat.lt_trans hj hi)]
      simpa using this
    rw [archetype_add_entity, chunks_place_eq_some ar.chunk_size id ar.chunks i hi hfree hfull]
    dsimp only
    exact ⟨fun _ => by simp, fun h => absurd hi h⟩

/-- Facts established by the archetype phase of `world_add_entity`: all
non-archetype state is unchanged; the entity's row `(a, c, r)` holds `id` as
the new last row of its chunk; every other row, chunk and archetype is
unchanged; the archetype list grows by at most one entry (the new one carrying
the sorted signature); and a rerun of the signature match now finds `a`. -/
structure PlaceSpec (v v' : World) (sorted : List Nat) (id a c r : Nat) : Prop where
  ids_eq : v'.id_stack_ids = v.id_stack_ids
  cap_eq : v'.id_stack_capacity = v.id_stack_capacity
  top_eq : v'.id_stack_top_index = v.id_stack_top_index
  live_eq : v'.live = v.live
  hwm_eq : v'.hwm = v.hwm
  sa_eq : v'.sparse_archetypes = v.sparse_archetypes
  sc_eq : v'.sparse_chunk_indexes = v.sparse_chunk_indexes
  sd_eq : v'.sparse_dense_indexes = v.sparse_dense_indexes
  scs_eq : v'.sparse_array_chunk_size = v.sparse_array_chunk_size
  cnt_eq : v'.sparse_array_number_of_chunks = v.sparse_array_number_of_chunks
  dcs_eq : v'.dense_array_chunk_size = v.dense_array_chunk_size
  data_eq : v'.all_components_data = v.all_components_data
  ncomp_eq : v'.number_of_components = v.number_of_components
  narch : v'.number_of_archetypes = v'.archetypes.length
  len_ge : v.archetypes.length ≤ v'.archetypes.length
  len_le : v'.archetypes.length ≤ v.archetypes.length + 1
  len_lt : v'.archetypes.length < 256
  a_lt : a < v'.archetypes.length
  comps_eq : (archAt v' a).components = sorted
  a_cs : (archAt v' a).chunk_size = v.dense_array_chunk_size
  c_lt : c < (archAt v' a).chunks.length
  row_id : (chunkAt v' a c).id_dense_array r = id
  row_len : (chunkAt v' a c).dense_arrays_length = r + 1
  row_le : (chunkAt v' a c).dense_arrays_length ≤ v.dense_array_chunk_size
  row_eq_oldlen : r = (chunkAt v a c).dense_arrays_length
  rows_pres : ∀ j, j ≠ r →
    (chunkAt v' a c).id_dense_array j = (chunkAt v a c).id_dense_array j
  chunk_pres : ∀ c', c' ≠ c → chunkAt v' a c' = chunkAt v a c'
  chunk_idx_old : ∀ c', c' < (archAt v' a).chunks.length → c' ≠ c →
    c' < (archAt v a).chunks.length
  arch_pres : ∀ a', a' ≠ a → archAt v' a' = archAt v a'
  len_succ_a : v'.archetypes.length = v.archetypes.length + 1 → a = v.archetypes.length
  prev_match : ∀ a0, world_match_archetype v sorted = some a0 → a = a0
  match_eq : world_match_archetype v' sorted = some a
  chunks_len_ge : (archAt v a).chunks.length ≤ (archAt v' a).chunks.length


/-- The archetype phase satisfies `PlaceSpec` (matched-archetype case). -/
theorem place_spec_matched (v : World) (sorted : List Nat) (id : Nat) (a0 : Nat)
    (hcnt : v.number_of_archetypes = v.archetypes.length)
    (hlt : v.archetypes.length < 256)
    (hdcs : 0 < v.dense_array_chunk_size)
    (hcs : ∀ a, a < v.archetypes.length →
      (archAt v a).chunk_size = v.dense_array_chunk_size)
    (hm : world_match_archetype v sorted = some a0) :
    PlaceSpec v (world_add_entity_place v sorted id).1 sorted id
      (world_add_entity_place v sorted id).2.1
      (world_add_entity_place v sorted id).2.2.1
      (world_add_entity_place v sorted id).2.2.2 := by
  have htake : v.archetypes.take v.number_of_archetypes = v.archetypes := by
    rw [hcnt]
    exact List.take_length _
  have hm' : v.archetypes.findIdx?
      (fun ar => ar.components == sorted) = some a0 := by
    rw [← htake]
    exact hm
  obtain ⟨ha0lt, hidx⟩ := List.findIdx?_eq_some_iff_findIdx_eq.1 hm'
  have hpred := ((List.findIdx_eq ha0lt).1 hidx).1
  have hcomps : (archAt v a0).components = sorted := by
    rw [archAt, List.getD_eq_getElem _ _ ha0lt]
    exact eq_of_beq (by simpa using hpred)
  obtain ⟨F1, F2, F3, F4, F5, F6, F7, F8, F9, F10, F11⟩ :=
    archetype_add_entity_spec (archAt v a0) id
  obtain ⟨L1, L2⟩ := archetype_add_entity_chunks_length (archAt v a0) id
  have heq : world_add_entity_place v sorted id =
      ({ v with
          archetypes := v.archetypes.set a0 (archetype_add_entity (archAt v a0) id).1 },
       a0, (archetype_add_entity (archAt v a0) id).2.1,
       (archetype_add_entity (archAt v a0) id).2.2) := by
    unfold world_add_entity_place
    rw [hm]
  have hA : archAt (world_add_entity_place v sorted id).1
      (world_add_entity_place v sorted id).2.1
      = (archetype_add_entity (archAt v a0) id).1 := by
    rw [archAt, heq]
    exact getD_set_self _ _ _ _ ha0lt
  have hCh : chunkAt (world_add_entity_place v sorted id).1
      (world_add_entity_place v sorted id).2.1
      (world_add_entity_place v sorted id).2.2.1
      = (archetype_add_entity (archAt v a0) id).1.chunks.getD
        (archetype_add_entity (archAt v a0) id).2.1 emptyChunk := by
    rw [chunkAt, hA, heq]
  refine
    { ids_eq := by rw [heq], cap_eq := by rw [heq], top_eq := by rw [heq]
      live_eq := by rw [heq], hwm_eq := by rw [heq], sa_eq := by rw [heq]
      sc_eq := by rw [heq], sd_eq := by rw [heq], scs_eq := by rw [heq]
      cnt_eq := by rw [heq], dcs_eq := by rw [heq], data_eq := by rw [heq]
      ncomp_eq := by rw [heq]
      narch := ?_, len_ge := ?_, len_le := ?_, len_lt := ?_, a_lt := ?_
      comps_eq := ?_, a_cs := ?_, c_lt := ?_, row_id := ?_, row_len := ?_
      row_le := ?_, row_eq_oldlen := ?_, rows_pres := ?_, chunk_pres := ?_
      chunk_idx_old := ?_, arch_pres := ?_
      len_succ_a := ?_, prev_match := ?_, match_eq := ?_
      chunks_len_ge := ?_ }
  · rw [heq]
    show v.number_of_archetypes = _
    rw [List.length_set]
    exact hcnt
  · rw [heq, List.length_set]
  · rw [heq, List.length_set]
    omega
  · rw [heq, List.length_set]
    exact hlt
  · rw [heq, List.length_set]
    exact ha0lt
  · rw [hA, F1]
    exact hcomps
  · rw [hA, F2]
    exact hcs a0 ha0lt
  · rw [hA, heq]
    exact F4
  · rw [hCh, heq]
    exact F6
  · rw [hCh, heq]
    exact F5
  · rw [hCh]
    have := F9 (by rw [hcs a0 ha0lt]; exact hdcs)
    rw [hcs a0 ha0lt] at this
    exact this
  · rw [heq, chunkAt]
    show (archetype_add_entity (archAt v a0) id).2.2 = _
    by_cases hcold : (archetype_add_entity (archAt v a0) id).2.1
        < (archAt v a0).chunks.length
    · rw [F10 hcold]
    · rw [(F11 hcold).2, List.getD_eq_default _ _ (Nat.le_of_not_lt hcold)]
      rfl
  · intro j hj
    rw [heq] at hj
    rw [hCh, heq, chunkAt]
    exact F7 j hj
  · intro c' hc'
    rw [heq] at hc'
    rw [chunkAt, hA, chunkAt, heq]
    exact F8 c' hc'
  · intro c' h1 h2
    rw [hA] at h1
    rw [heq] at h2 ⊢
    dsimp only at h2 ⊢
    by_cases hcold : (archetype_add_entity (archAt v a0) id).2.1
        < (archAt v a0).chunks.length
    · rw [L1 hcold] at h1
      exact h1
    · rw [L2 hcold] at h1
      have hc0 : (archetype_add_entity (archAt v a0) id).2.1
          = (archAt v a0).chunks.length := (F11 hcold).1
      omega
  · intro a' ha'
    rw [heq] at ha'
    rw [archAt, archAt, heq]
    exact getD_set_ne _ _ _ _ ha'
  · intro h
    rw [heq, List.length_set] at h
    exact absurd h (by omega)
  · intro a1 h
    rw [hm] at h
    rw [heq]
    exact Option.some.inj h
  · rw [world_match_archetype, heq]
    dsimp only
    show ((v.archetypes.set a0 _).take v.number_of_archetypes).findIdx? _ = _
    have htake' : (v.archetypes.set a0
        (archetype_add_entity (archAt v a0) id).1).take v.number_of_archetypes
        = v.archetypes.set a0 (archetype_add_entity (archAt v a0) id).1 := by
      rw [hcnt, ← List.length_set v.archetypes a0
        (archetype_add_entity (archAt v a0) id).1]
      exact List.take_length _
    rw [htake']
    refine List.findIdx?_eq_some_iff_findIdx_eq.2 ⟨by simpa using ha0lt, ?_⟩
    refine (List.findIdx_eq (by simpa using ha0lt)).2 ⟨?_, ?_⟩
    · rw [List.getElem_set_self]
      have : (archetype_add_entity (archAt v a0) id).1.components = sorted := by
        rw [F1]
        exact hcomps
      simpa using this
    · intro j hj
      rw [List.getElem_set_ne (show a0 ≠ j by omega)]
      have := ((List.findIdx_eq ha0lt).1 hidx).2 j hj
      simpa using this
  · rw [hA, heq]
    dsimp only
    by_cases hcold : (archetype_add_entity (archAt v a0) id).2.1
        < (archAt v a0).chunks.length
    · have := L1 hcold
      omega
    · have := L2 hcold
      omega

/-- The archetype phase satisfies `PlaceSpec` (new-archetype case). -/
theorem place_spec_new (v : World) (sorted : List Nat) (id : Nat)
    (hcnt : v.number_of_archetypes = v.archetypes.length)
    (hdcs : 0 < v.dense_array_chunk_size)
    (hlt255 : v.archetypes.length < 255)
    (hm : world_match_archetype v sorted = none) :
    PlaceSpec v (world_add_entity_place v sorted id).1 sorted id
      (world_add_entity_place v sorted id).2.1
      (world_add_entity_place v sorted id).2.2.1
      (world_add_entity_place v sorted id).2.2.2 := by
  have htake : v.archetypes.take v.number_of_archetypes = v.archetypes := by
    rw [hcnt]
    exact List.take_length _
  have hm' : v.archetypes.findIdx? (fun ar => ar.components == sorted) = none := by
    rw [← htake]
    exact hm
  have hpredold : ∀ j, (hj : j < v.archetypes.length) →
      (v.archetypes[j].components == sorted) = false := by
    intro j hj
    exact (List.findIdx?_eq_none_iff.1 hm') _ (v.archetypes.getElem_mem hj)
  have harchnew : archAt (world_add_archetype v sorted).1 (world_add_archetype v sorted).2
      = archetype_init sorted v.dense_array_chunk_size := by
    show (v.archetypes.take v.number_of_archetypes
        ++ [archetype_init sorted v.dense_array_chunk_size]).getD
      v.number_of_archetypes emptyArchetype = _
    rw [htake, hcnt, List.getD_append_right _ _ _ _ (Nat.le_refl _), Nat.sub_self]
    rfl
  have hplinit : archetype_add_entity
      (archetype_init sorted v.dense_array_chunk_size) id =
      ({ components := sorted
         chunks := [placedChunk emptyChunk id]
         chunk_size := v.dense_array_chunk_size }, 0, 0) := by
    rw [archetype_add_entity]
    have hplace : chunks_place
        (archetype_init sorted v.dense_array_chunk_size).chunk_size id
        (archetype_init sorted v.dense_array_chunk_size).chunks =
        some ([placedChunk emptyChunk id], 0, 0) := by
      show chunks_place v.dense_array_chunk_size id [emptyChunk] = _
      rw [chunks_place, if_pos (show emptyChunk.dense_arrays_length
        < v.dense_array_chunk_size from hdcs)]
      rfl
    rw [hplace]
    rfl
  have harchs : (world_add_archetype v sorted).1.archetypes =
      v.archetypes ++ [archetype_init sorted v.dense_array_chunk_size] := by
    show v.archetypes.take v.number_of_archetypes ++ _ = _
    rw [htake]
  have ha0 : (world_add_archetype v sorted).2 = v.archetypes.length := hcnt
  have heq : world_add_entity_place v sorted id =
      ({ (world_add_archetype v sorted).1 with
          archetypes := (world_add_archetype v sorted).1.archetypes.set
            (world_add_archetype v sorted).2
            { components := sorted
              chunks := [placedChunk emptyChunk id]
              chunk_size := v.dense_array_chunk_size } },
       (world_add_archetype v sorted).2, 0, 0) := by
    unfold world_add_entity_place
    rw [hm]
    dsimp only
    rw [harchnew, hplinit]
  have hsetbound : (world_add_archetype v sorted).2
      < (world_add_archetype v sorted).1.archetypes.length := by
    rw [ha0, harchs]
    simp
  have hsetlen : ((world_add_archetype v sorted).1.archetypes.set
      (world_add_archetype v sorted).2
      { components := sorted
        chunks := [placedChunk emptyChunk id]
        chunk_size := v.dense_array_chunk_size }).length
      = v.archetypes.length + 1 := by
    rw [List.length_set, harchs]
    simp
  have hA : archAt (world_add_entity_place v sorted id).1
      (world_add_entity_place v sorted id).2.1
      = { components := sorted
          chunks := [placedChunk emptyChunk id]
          chunk_size := v.dense_array_chunk_size } := by
    rw [archAt, heq]
    exact getD_set_self _ _ _ _ hsetbound
  have hCh : chunkAt (world_add_entity_place v sorted id).1
      (world_add_entity_place v sorted id).2.1
      (world_add_entity_place v sorted id).2.2.1
      = placedChunk emptyChunk id := by
    rw [chunkAt, hA, heq]
    rfl
  have hOldA : archAt v (world_add_entity_place v sorted id).2.1 = emptyArchetype := by
    rw [heq]
    exact archAt_oob v _ ha0.ge
  have hOldCh : ∀ c', chunkAt v (world_add_entity_place v sorted id).2.1 c'
      = emptyChunk := by
    intro c'
    refine chunkAt_oob v _ _ ?_
    rw [hOldA]
    exact Nat.zero_le _
  refine
    { ids_eq := by rw [heq]; rfl, cap_eq := by rw [heq]; rfl
      top_eq := by rw [heq]; rfl, live_eq := by rw [heq]; rfl
      hwm_eq := by rw [heq]; rfl, sa_eq := by rw [heq]; rfl
      sc_eq := by rw [heq]; rfl, sd_eq := by rw [heq]; rfl
      scs_eq := by rw [heq]; rfl, cnt_eq := by rw [heq]; rfl
      dcs_eq := by rw [heq]; rfl, data_eq := by rw [heq]; rfl
      ncomp_eq := by rw [heq]; rfl
      narch := ?_, len_ge := ?_, len_le := ?_, len_lt := ?_, a_lt := ?_
      comps_eq := ?_, a_cs := ?_, c_lt := ?_, row_id := ?_, row_len := ?_
      row_le := ?_, row_eq_oldlen := ?_, rows_pres := ?_, chunk_pres := ?_
      chunk_idx_old := ?_, arch_pres := ?_
      len_succ_a := ?_, prev_match := ?_, match_eq := ?_
      chunks_len_ge := ?_ }
  · rw [heq]
    show ((v.number_of_archetypes + 1) % 256) = _
    rw [hsetlen, hcnt, Nat.mod_eq_of_lt (by omega)]
  · rw [heq, hsetlen]
    omega
  · rw [heq, hsetlen]
  · rw [heq, hsetlen]
    omega
  · rw [heq]
    dsimp only
    rw [hsetlen, ha0]
    omega
  · rw [hA]
  · rw [hA]
  · rw [hA, heq]
    dsimp only
    show 0 < ([placedChunk emptyChunk id] : List ArchetypeDataChunk).length
    simp
  · rw [hCh, heq]
    dsimp only
    show updf emptyChunk.id_dense_array emptyChunk.dense_arrays_length id 0 = id
    exact updf_self _ _ _
  · rw [hCh, heq]
    rfl
  · rw [hCh]
    show emptyChunk.dense_arrays_length + 1 ≤ v.dense_array_chunk_size
    show 1 ≤ v.dense_array_chunk_size
    omega
  · rw [heq]
    dsimp only
    have := hOldCh 0
    rw [heq] at this
    dsimp only at this
    rw [this]
    rfl
  · intro j hj
    rw [heq] at hj
    dsimp only at hj
    rw [hCh]
    have := hOldCh (world_add_entity_place v sorted id).2.2.1
    rw [heq] at this
    dsimp only at this
    rw [heq]
    dsimp only
    rw [this]
    show updf emptyChunk.id_dense_array emptyChunk.dense_arrays_length id j = _
    show updf emptyChunk.id_dense_array 0 id j = _
    rw [updf_ne _ _ _ hj]
  · intro c' hc'
    rw [heq] at hc'
    dsimp only at hc'
    have hOC := hOldCh c'
    rw [heq] at hOC
    dsimp only at hOC
    rw [chunkAt, hA, heq]
    dsimp only
    rw [hOC]
    exact List.getD_eq_default _ _ (by simpa using Nat.one_le_iff_ne_zero.2 hc')
  · intro c' h1 h2
    rw [hA] at h1
    rw [heq] at h2
    dsimp only at h2
    have h1' : c' < 1 := h1
    omega
  · intro a' ha'
    rw [heq] at ha'
    dsimp only at ha'
    rw [archAt, archAt, heq]
    dsimp only
    rw [getD_set_ne _ _ _ _ ha', harchs]
    rw [ha0] at ha'
    rcases Nat.lt_or_ge a' v.archetypes.length with h | h
    · rw [List.getD_append _ _ _ _ h]
    · have h' : v.archetypes.length < a' := Nat.lt_of_le_of_ne h (Ne.symm ha')
      rw [List.getD_eq_default _ _ (by simpa using h'),
        List.getD_eq_default _ _ (Nat.le_of_lt h')]
  · intro _
    rw [heq]
    exact ha0
  · intro a1 h
    rw [hm] at h
    simp at h
  · rw [world_match_archetype, heq]
    dsimp only
    have hwacnt : (world_add_archetype v sorted).1.number_of_archetypes
        = (v.number_of_archetypes + 1) % 256 := rfl
    have hcnt2 : ((v.number_of_archetypes + 1) % 256) = v.archetypes.length + 1 := by
      rw [hcnt, Nat.mod_eq_of_lt (by omega)]
    rw [hwacnt, hcnt2]
    have htake2 : (((world_add_archetype v sorted).1.archetypes.set
        (world_add_archetype v sorted).2
        { components := sorted
          chunks := [placedChunk emptyChunk id]
          chunk_size := v.dense_array_chunk_size }).take (v.archetypes.length + 1))
        = ((world_add_archetype v sorted).1.archetypes.set
        (world_add_archetype v sorted).2
        { components := sorted
          chunks := [placedChunk emptyChunk id]
          chunk_size := v.dense_array_chunk_size }) := by
      rw [← hsetlen]
      exact List.take_length _
    rw [htake2]
    refine List.findIdx?_eq_some_iff_findIdx_eq.2 ⟨by rw [hsetlen, ha0]; omega, ?_⟩
    refine (List.findIdx_eq (by rw [hsetlen, ha0]; omega)).2 ⟨?_, ?_⟩
    · rw [List.getElem_set_self]
      simp
    · intro j hj
      rw [ha0] at hj
      rw [List.getElem_set_ne (show (world_add_archetype v sorted).2 ≠ j by
        rw [ha0]; omega)]
      have hjlen : j < (world_add_archetype v sorted).1.archetypes.length := by
        rw [harchs]
        simp only [List.length_append]
        omega
      rw [← List.getD_eq_getElem _ emptyArchetype hjlen]
      have hget2 : ((world_add_archetype v sorted).1.archetypes).getD j emptyArchetype
          = v.archetypes.getD j emptyArchetype := by
        rw [harchs]
        exact List.getD_append _ _ _ _ hj
      rw [hget2, List.getD_eq_getElem _ _ hj]
      simpa using hpredold j hj
  · rw [hA, hOldA]
    exact Nat.zero_le _

/-- The archetype phase satisfies `PlaceSpec` in both branches. -/
theorem place_spec (v : World) (sorted : List Nat) (id : Nat)
    (hcnt : v.number_of_archetypes = v.archetypes.length)
    (hlt : v.archetypes.length < 256)
    (hdcs : 0 < v.dense_array_chunk_size)
    (hcs : ∀ a, a < v.archetypes.length →
      (archAt v a).chunk_size = v.dense_array_chunk_size)
    (hnew : world_match_archetype v sorted = none → v.archetypes.length < 255) :
    PlaceSpec v (world_add_entity_place v sorted id).1 sorted id
      (world_add_entity_place v sorted id).2.1
      (world_add_entity_place v sorted id).2.2.1
      (world_add_entity_place v sorted id).2.2.2 := by
  rcases hm : world_match_archetype v sorted with _ | a0
  · exact place_spec_new v sorted id hcnt hdcs (hnew hm) hm
  · exact place_spec_matched v sorted id a0 hcnt hlt hdcs hcs hm

/-- Unfolding of the sparse phase: the chunk count grows by one exactly when
the id's sub-array index is out of range, and the id's slot is overwritten in
all three parallel sparse arrays. -/
theorem sparse_phase_eq (v : World) (id a c r : Nat) :
    world_add_entity_sparse v id a c r =
      { v with
          sparse_array_number_of_chunks :=
            if v.sparse_array_number_of_chunks ≤ id / v.sparse_array_chunk_size
            then v.sparse_array_number_of_chunks + 1
            else v.sparse_array_number_of_chunks
          sparse_archetypes := updf2 v.sparse_archetypes
            (id / v.sparse_array_chunk_size) (id % v.sparse_array_chunk_size) a
          sparse_chunk_indexes := updf2 v.sparse_chunk_indexes
            (id / v.sparse_array_chunk_size) (id % v.sparse_array_chunk_size) c
          sparse_dense_indexes := updf2 v.sparse_dense_indexes
            (id / v.sparse_array_chunk_size) (id % v.sparse_array_chunk_size) r } := by
  rw [world_add_entity_sparse, sparse_grow]
  by_cases h : v.sparse_array_number_of_chunks ≤ id / v.sparse_array_chunk_size
  · rw [if_pos h, if_pos h]
  · rw [if_neg h, if_neg h]

/-- `world_match_archetype` only reads the archetype list and its counter. -/
theorem world_match_archetype_congr (v v' : World)
    (harch : v'.archetypes = v.archetypes)
    (hcnt : v'.number_of_archetypes = v.number_of_archetypes) (s : List Nat) :
    world_match_archetype v' s = world_match_archetype v s := by
  rw [world_match_archetype, world_match_archetype, harch, hcnt]

/-- Facts established by a full `world_add_entity` call on an invariant world:
the returned id is fresh and becomes live, the sparse chunk count grows by one
exactly when the id's sub-array index was out of range, the id's slot is
covered afterwards, the sorted signature matches the archetype recorded for
the new id (and agrees with any pre-existing match), and no other entity's
sparse archetype entry changes. -/
structure AddSpec (w w' : World) (comps : List Nat) (id : Nat) : Prop where
  live_eq : w'.live = id :: w.live
  id_fresh : id ∉ w.live
  scs_eq : w'.sparse_array_chunk_size = w.sparse_array_chunk_size
  cnt_grow : w'.sparse_array_number_of_chunks =
    if w.sparse_array_number_of_chunks ≤ id / w.sparse_array_chunk_size
    then w.sparse_array_number_of_chunks + 1
    else w.sparse_array_number_of_chunks
  id_cov : id / w.sparse_array_chunk_size < w'.sparse_array_number_of_chunks
  match_self : world_match_archetype w' (List.insertionSort (· ≤ ·) comps)
    = some (sparseA w' id)
  match_prev : ∀ a0,
    world_match_archetype w (List.insertionSort (· ≤ ·) comps) = some a0 →
    sparseA w' id = a0
  sA_other : ∀ z, z ≠ id → sparseA w' z = sparseA w z
  data_eq : w'.all_components_data = w.all_components_data

/-- A legal `world_add_entity` call preserves the invariant and satisfies
`AddSpec`. -/
theorem add_entity_full (w : World) (comps : List Nat) (hw : WInv w)
    (hl : LegalAddEntity w comps) :
    WInv (world_add_entity w comps).1
      ∧ AddSpec w (world_add_entity w comps).1 comps (world_add_entity w comps).2 := by
  obtain ⟨hnd, hreg, hnewlt⟩ := hl
  have ps := pop_spec w hw
  set srt := List.insertionSort (· ≤ ·) comps with hsrt
  set idv := (world_add_entity_pop w).2 with hidvd
  set wp := (world_add_entity_pop w).1 with hwpd
  have harchAt_wp : ∀ x, archAt wp x = archAt w x := by
    intro x
    rw [archAt, archAt, ps.arch_eq]
  have hchunkAt_wp : ∀ x y, chunkAt wp x y = chunkAt w x y := by
    intro x y
    rw [chunkAt, chunkAt, harchAt_wp]
  have hwplen : wp.archetypes.length = w.archetypes.length := by rw [ps.arch_eq]
  have hcnt' : wp.number_of_archetypes = wp.archetypes.length := by
    rw [ps.narch_eq, ps.arch_eq]
    exact hw.arch_count
  have hlt' : wp.archetypes.length < 256 := by
    rw [hwplen]
    exact hw.arch_lt
  have hdcs' : 0 < wp.dense_array_chunk_size := by
    rw [ps.dcs_eq]
    exact hw.dcs_pos
  have hcs' : ∀ x, x < wp.archetypes.length →
      (archAt wp x).chunk_size = wp.dense_array_chunk_size := by
    intro x hx
    rw [harchAt_wp, ps.dcs_eq]
    exact hw.arch_cs x (by rw [hwplen] at hx; exact hx)
  have hmatch_wp : ∀ s, world_match_archetype wp s = world_match_archetype w s :=
    fun s => world_match_archetype_congr w wp ps.arch_eq ps.narch_eq s
  have hnew' : world_match_archetype wp srt = none → wp.archetypes.length < 255 := by
    intro h
    rw [hmatch_wp] at h
    rw [hwplen]
    exact hnewlt h
  have pls := place_spec wp srt idv hcnt' hlt' hdcs' hcs' hnew'
  set v' := (world_add_entity_place wp srt idv).1 with hv'd
  set av := (world_add_entity_place wp srt idv).2.1 with havd
  set cv := (world_add_entity_place wp srt idv).2.2.1 with hcvd
  set rv := (world_add_entity_place wp srt idv).2.2.2 with hrvd
  have hsp := sparse_phase_eq v' idv av cv rv
  set W6 := world_add_entity_sparse v' idv av cv rv with hW6d
  have hfin : world_add_entity w comps = (W6, idv) := rfl
  have h6arch : W6.archetypes = v'.archetypes := by rw [hsp]
  have h6ids : W6.id_stack_ids = v'.id_stack_ids := by rw [hsp]
  have h6cap : W6.id_stack_capacity = v'.id_stack_capacity := by rw [hsp]
  have h6top : W6.id_stack_top_index = v'.id_stack_top_index := by rw [hsp]
  have h6live : W6.live = v'.live := by rw [hsp]
  have h6hwm : W6.hwm = v'.hwm := by rw [hsp]
  have h6data : W6.all_components_data = v'.all_components_data := by rw [hsp]
  have h6narch : W6.number_of_archetypes = v'.number_of_archetypes := by rw [hsp]
  have h6ncomp : W6.number_of_components = v'.number_of_components := by rw [hsp]
  have h6scs : W6.sparse_array_chunk_size = v'.sparse_array_chunk_size := by rw [hsp]
  have h6dcs : W6.dense_array_chunk_size = v'.dense_array_chunk_size := by rw [hsp]
  have h6cnt : W6.sparse_array_number_of_chunks =
      if v'.sparse_array_number_of_chunks ≤ idv / v'.sparse_array_chunk_size
      then v'.sparse_array_number_of_chunks + 1
      else v'.sparse_array_number_of_chunks := by rw [hsp]
  have h6sa : W6.sparse_archetypes = updf2 v'.sparse_archetypes
      (idv / v'.sparse_array_chunk_size) (idv % v'.sparse_array_chunk_size) av := by
    rw [hsp]
  have h6sc : W6.sparse_chunk_indexes = updf2 v'.sparse_chunk_indexes
      (idv / v'.sparse_array_chunk_size) (idv % v'.sparse_array_chunk_size) cv := by
    rw [hsp]
  have h6sd : W6.sparse_dense_indexes = updf2 v'.sparse_dense_indexes
      (idv / v'.sparse_array_chunk_size) (idv % v'.sparse_array_chunk_size) rv := by
    rw [hsp]
  have hscs_w : v'.sparse_array_chunk_size = w.sparse_array_chunk_size := by
    rw [pls.scs_eq, ps.scs_eq]
  have hcnt_w : v'.sparse_array_number_of_chunks
      = w.sparse_array_number_of_chunks := by
    rw [pls.cnt_eq, ps.cnt_eq]
  have h6scs' : W6.sparse_array_chunk_size = w.sparse_array_chunk_size := by
    rw [h6scs, hscs_w]
  have h6dcs' : W6.dense_array_chunk_size = w.dense_array_chunk_size := by
    rw [h6dcs, pls.dcs_eq, ps.dcs_eq]
  have h6data' : W6.all_components_data = w.all_components_data := by
    rw [h6data, pls.data_eq, ps.data_eq]
  have h6live' : W6.live = idv :: w.live := by
    rw [h6live, pls.live_eq, ps.live_eq]
  have h6cnt' : W6.sparse_array_number_of_chunks =
      if w.sparse_array_number_of_chunks ≤ idv / w.sparse_array_chunk_size
      then w.sparse_array_number_of_chunks + 1
      else w.sparse_array_number_of_chunks := by
    rw [h6cnt, hcnt_w, hscs_w]
  have h6sa' : W6.sparse_archetypes = updf2 w.sparse_archetypes
      (idv / w.sparse_array_chunk_size) (idv % w.sparse_array_chunk_size) av := by
    rw [h6sa, pls.sa_eq, ps.sa_eq, hscs_w]
  have h6sc' : W6.sparse_chunk_indexes = updf2 w.sparse_chunk_indexes
      (idv / w.sparse_array_chunk_size) (idv % w.sparse_array_chunk_size) cv := by
    rw [h6sc, pls.sc_eq, ps.sc_eq, hscs_w]
  have h6sd' : W6.sparse_dense_indexes = updf2 w.sparse_dense_indexes
      (idv / w.sparse_array_chunk_size) (idv % w.sparse_array_chunk_size) rv := by
    rw [h6sd, pls.sd_eq, ps.sd_eq, hscs_w]
  have hidc : idv / w.sparse_array_chunk_size ≤ w.sparse_array_number_of_chunks :=
    ps.id_cov
  have hcnt_ge : w.sparse_array_number_of_chunks
      ≤ W6.sparse_array_number_of_chunks := by
    rw [h6cnt']
    split_ifs <;> omega
  have hid_cov6 : idv / w.sparse_array_chunk_size
      < W6.sparse_array_number_of_chunks := by
    rw [h6cnt']
    split_ifs with h <;> omega
  have hA6 : sparseA W6 idv = av := by
    rw [sparseA, h6sa', h6scs']
    exact updf2_self _ _ _ _
  have hC6 : sparseC W6 idv = cv := by
    rw [sparseC, h6sc', h6scs']
    exact updf2_self _ _ _ _
  have hR6 : sparseR W6 idv = rv := by
    rw [sparseR, h6sd', h6scs']
    exact updf2_self _ _ _ _
  have hAo : ∀ z, z ≠ idv → sparseA W6 z = sparseA w z := by
    intro z hz
    rw [sparseA, sparseA, h6sa', h6scs']
    refine updf2_ne _ _ _ _ ?_
    rintro ⟨h1, h2⟩
    exact hz (slot_inj h1 h2)
  have hCo : ∀ z, z ≠ idv → sparseC W6 z = sparseC w z := by
    intro z hz
    rw [sparseC, sparseC, h6sc', h6scs']
    refine updf2_ne _ _ _ _ ?_
    rintro ⟨h1, h2⟩
    exact hz (slot_inj h1 h2)
  have hRo : ∀ z, z ≠ idv → sparseR W6 z = sparseR w z := by
    intro z hz
    rw [sparseR, sparseR, h6sd', h6scs']
    refine updf2_ne _ _ _ _ ?_
    rintro ⟨h1, h2⟩
    exact hz (slot_inj h1 h2)
  have harchAt6 : ∀ x, archAt W6 x = archAt v' x := by
    intro x
    rw [archAt, archAt, h6arch]
  have hchunkAt6 : ∀ x y, chunkAt W6 x y = chunkAt v' x y := by
    intro x y
    rw [chunkAt, chunkAt, harchAt6]
  have harch_o : ∀ x, x ≠ av → archAt W6 x = archAt w x := by
    intro x hx
    rw [harchAt6, pls.arch_pres x hx, harchAt_wp]
  have hchunk_oc : ∀ y, y ≠ cv → chunkAt W6 av y = chunkAt w av y := by
    intro y hy
    rw [hchunkAt6, pls.chunk_pres y hy, hchunkAt_wp]
  have hchunk_oa : ∀ x y, x ≠ av → chunkAt W6 x y = chunkAt w x y := by
    intro x y hx
    rw [chunkAt, chunkAt, harch_o x hx]
  have hlen_ge_w : w.archetypes.length ≤ v'.archetypes.length := by
    rw [← hwplen]
    exact pls.len_ge
  have ha_or : ∀ x, x < v'.archetypes.length → x ≠ av →
      x < w.archetypes.length := by
    intro x hx hxa
    have h1 := pls.len_ge
    have h2 := pls.len_le
    rcases Nat.lt_or_ge x wp.archetypes.length with h | h
    · rw [hwplen] at h
      exact h
    · have hx1 : x = wp.archetypes.length := by omega
      have hv1 : v'.archetypes.length = wp.archetypes.length + 1 := by omega
      have hav := pls.len_succ_a hv1
      rw [hav] at hxa
      exact absurd hx1 hxa
  have hrow_old : rv = (chunkAt w av cv).dense_arrays_length := by
    rw [pls.row_eq_oldlen, hchunkAt_wp]
  have haw_of_chunks : ∀ {y : Nat}, y < (archAt w av).chunks.length →
      av < w.archetypes.length := by
    intro y hy
    by_contra hcon
    push_neg at hcon
    rw [archAt_oob w av hcon] at hy
    simp [emptyArchetype] at hy
  have hfreshz : ∀ z ∈ w.live, z ≠ idv := fun z hzl h => ps.id_fresh (h ▸ hzl)
  rw [hfin]
  refine ⟨?_, ?_⟩
  · show WInv W6
    refine
      { scs_pos := ?_, dcs_pos := ?_, cap_pos := ?_, arch_count := ?_
        arch_lt := ?_, comp_count := ?_, comp_lt := ?_, top_le_hwm := ?_
        hwm_le_cap := ?_, seeded := ?_, freed_lt := ?_, freed_cov := ?_
        stack_inj := ?_, stack_not_live := ?_, live_lt_hwm := ?_, hwm_cov := ?_
        live_nodup := ?_, live_len := ?_, live_cov := ?_, fwd := ?_, bwd := ?_
        arch_cs := ?_, arch_chunks_pos := ?_, arch_comps_nodup := ?_
        arch_comps_reg := ?_, chunk_len_le := ?_, sparse_arch_lt := ?_ }
    · rw [h6scs']
      exact hw.scs_pos
    · rw [h6dcs']
      exact hw.dcs_pos
    · rw [h6cap, pls.cap_eq]
      exact ps.cap_pos
    · rw [h6narch, pls.narch, h6arch]
    · rw [h6arch]
      exact pls.len_lt
    · rw [h6ncomp, pls.ncomp_eq, ps.ncomp_eq, h6data']
      exact hw.comp_count
    · rw [h6data']
      exact hw.comp_lt
    · rw [h6top, pls.top_eq, h6hwm, pls.hwm_eq]
      exact ps.top_le_hwm
    · rw [h6hwm, pls.hwm_eq, h6cap, pls.cap_eq]
      exact ps.hwm_le_cap
    · intro p hp1 hp2
      rw [h6hwm, pls.hwm_eq] at hp1
      rw [h6cap, pls.cap_eq] at hp2
      rw [h6ids, pls.ids_eq]
      exact ps.seeded p hp1 hp2
    · intro p hp1 hp2
      rw [h6top, pls.top_eq] at hp1
      rw [h6hwm, pls.hwm_eq] at hp2
      rw [h6ids, pls.ids_eq, h6hwm, pls.hwm_eq]
      exact ps.freed_lt p hp1 hp2
    · intro p hp1 hp2
      rw [h6top, pls.top_eq] at hp1
      rw [h6hwm, pls.hwm_eq] at hp2
      rw [h6ids, pls.ids_eq, h6scs']
      exact lt_of_lt_of_le (ps.freed_cov p hp1 hp2) hcnt_ge
    · intro p q hp1 hp2 hq1 hq2 hpq
      rw [h6top, pls.top_eq] at hp1 hq1
      rw [h6cap, pls.cap_eq] at hp2 hq2
      rw [h6ids, pls.ids_eq]
      exact ps.stack_inj p q hp1 hp2 hq1 hq2 hpq
    · intro p hp1 hp2
      rw [h6top, pls.top_eq] at hp1
      rw [h6cap, pls.cap_eq] at hp2
      rw [h6ids, pls.ids_eq, h6live, pls.live_eq]
      exact ps.stack_not_live p hp1 hp2
    · intro e he
      rw [h6live, pls.live_eq] at he
      rw [h6hwm, pls.hwm_eq]
      exact ps.live_lt_hwm e he
    · rw [h6hwm, pls.hwm_eq, h6scs']
      rcases ps.hwm_step with h | ⟨h, hidh⟩
      · rw [h]
        exact le_trans hw.hwm_cov hcnt_ge
      · rw [h]
        have hstep : (w.hwm + 1) / w.sparse_array_chunk_size
            ≤ w.hwm / w.sparse_array_chunk_size + 1 := by
          have hle : w.hwm + 1 ≤ w.hwm + w.sparse_array_chunk_size := by
            have := hw.scs_pos
            omega
          calc (w.hwm + 1) / w.sparse_array_chunk_size
              ≤ (w.hwm + w.sparse_array_chunk_size) / w.sparse_array_chunk_size :=
                Nat.div_le_div_right hle
            _ = w.hwm / w.sparse_array_chunk_size + 1 :=
                Nat.add_div_right _ hw.scs_pos
        have hhd : w.hwm / w.sparse_array_chunk_size
            = idv / w.sparse_array_chunk_size := by rw [hidh]
        rw [h6cnt']
        split_ifs with hgc
        · omega
        · omega
    · rw [h6live, pls.live_eq]
      exact ps.live_nodup
    · rw [h6live, pls.live_eq, h6top, pls.top_eq]
      exact ps.live_len
    · intro e he
      rw [h6live'] at he
      rw [h6scs']
      rcases List.mem_cons.1 he with he | he
      · rw [he]
        exact hid_cov6
      · exact lt_of_lt_of_le (hw.live_cov e he) hcnt_ge
    · intro e he
      rw [h6live'] at he
      rcases List.mem_cons.1 he with he | he
      · subst he
        refine ⟨?_, ?_, ?_, ?_⟩
        · rw [hA6, h6arch]
          exact pls.a_lt
        · rw [hC6, hA6, harchAt6]
          exact pls.c_lt
        · rw [hR6, hC6, hA6, hchunkAt6, pls.row_len]
          omega
        · rw [hR6, hC6, hA6, hchunkAt6]
          exact pls.row_id
      · have hne := hfreshz e he
        obtain ⟨h1, h2, h3, h4⟩ := hw.fwd e he
        rw [hAo e hne, hCo e hne, hRo e hne]
        by_cases hea : sparseA w e = av
        · rw [hea] at h1 h2 h3 h4 ⊢
          by_cases hec : sparseC w e = cv
          · rw [hec] at h3 h4 ⊢
            have hlt3 : sparseR w e < rv := by
              rw [hrow_old]
              exact h3
            refine ⟨?_, ?_, ?_, ?_⟩
            · rw [h6arch]
              exact pls.a_lt
            · rw [harchAt6]
              exact pls.c_lt
            · rw [hchunkAt6, pls.row_len]
              omega
            · rw [hchunkAt6, pls.rows_pres _ (by omega), hchunkAt_wp]
              exact h4
          · refine ⟨?_, ?_, ?_, ?_⟩
            · rw [h6arch]
              exact pls.a_lt
            · rw [harchAt6]
              have hcg : (archAt w av).chunks.length
                  ≤ (archAt v' av).chunks.length := by
                rw [← harchAt_wp]
                exact pls.chunks_len_ge
              exact lt_of_lt_of_le h2 hcg
            · rw [hchunk_oc _ hec]
              exact h3
            · rw [hchunk_oc _ hec]
              exact h4
        · refine ⟨?_, ?_, ?_, ?_⟩
          · rw [h6arch]
            omega
          · rw [harch_o _ hea]
            exact h2
          · rw [hchunk_oa _ _ hea]
            exact h3
          · rw [hchunk_oa _ _ hea]
            exact h4
    · intro a' ha' c' hc' r' hr'
      rw [h6arch] at ha'
      by_cases hea : a' = av
      · subst hea
        rw [harchAt6] at hc'
        by_cases hec : c' = cv
        · subst hec
          rw [hchunkAt6, pls.row_len] at hr'
          by_cases her : r' = rv
          · subst her
            rw [hchunkAt6, pls.row_id]
            refine ⟨?_, ?_, ?_, ?_⟩
            · rw [h6live']
              exact List.mem_cons_self _ _
            · exact hA6
            · exact hC6
            · exact hR6
          · have hr'' : r' < rv := by omega
            have haw : av < w.archetypes.length := by
              by_contra hcon
              push_neg at hcon
              have h0 := chunkAt_oob w av cv
                (by rw [archAt_oob w av hcon]; exact Nat.zero_le _)
              rw [hrow_old, h0] at hr''
              simp [emptyChunk] at hr''
            have hcw : cv < (archAt w av).chunks.length := by
              by_contra hcon
              push_neg at hcon
              have h0 := chunkAt_oob w av cv hcon
              rw [hrow_old, h0] at hr''
              simp [emptyChunk] at hr''
            have hr3 : r' < (chunkAt w av cv).dense_arrays_length := by omega
            obtain ⟨hb1, hb2, hb3, hb4⟩ := hw.bwd av haw cv hcw r' hr3
            have hzid : (chunkAt W6 av cv).id_dense_array r'
                = (chunkAt w av cv).id_dense_array r' := by
              rw [hchunkAt6, pls.rows_pres r' her, hchunkAt_wp]
            have hzne : (chunkAt w av cv).id_dense_array r' ≠ idv := hfreshz _ hb1
            rw [hzid]
            refine ⟨?_, ?_, ?_, ?_⟩
            · rw [h6live']
              exact List.mem_cons_of_mem _ hb1
            · rw [hAo _ hzne]
              exact hb2
            · rw [hCo _ hzne]
              exact hb3
            · rw [hRo _ hzne]
              exact hb4
        · have hcold : c' < (archAt wp av).chunks.length :=
            pls.chunk_idx_old c' hc' hec
          rw [harchAt_wp] at hcold
          have haw : av < w.archetypes.length := haw_of_chunks hcold
          have hch := hchunk_oc c' hec
          rw [hch] at hr'
          obtain ⟨hb1, hb2, hb3, hb4⟩ := hw.bwd av haw c' hcold r' hr'
          have hzne : (chunkAt w av c').id_dense_array r' ≠ idv := hfreshz _ hb1
          rw [hch]
          refine ⟨?_, ?_, ?_, ?_⟩
          · rw [h6live']
            exact List.mem_cons_of_mem _ hb1
          · rw [hAo _ hzne]
            exact hb2
          · rw [hCo _ hzne]
            exact hb3
          · rw [hRo _ hzne]
            exact hb4
      · have haw : a' < w.archetypes.length := ha_or a' ha' hea
        rw [harch_o a' hea] at hc'
        rw [hchunk_oa a' c' hea] at hr'
        obtain ⟨hb1, hb2, hb3, hb4⟩ := hw.bwd a' haw c' hc' r' hr'
        have hzne : (chunkAt w a' c').id_dense_array r' ≠ idv := hfreshz _ hb1
        rw [hchunk_oa a' c' hea]
        refine ⟨?_, ?_, ?_, ?_⟩
        · rw [h6live']
          exact List.mem_cons_of_mem _ hb1
        · rw [hAo _ hzne]
          exact hb2
        · rw [hCo _ hzne]
          exact hb3
        · rw [hRo _ hzne]
          exact hb4
    · intro x hx
      rw [h6arch] at hx
      rw [harchAt6, h6dcs']
      by_cases hxa : x = av
      · subst hxa
        rw [pls.a_cs, ps.dcs_eq]
      · rw [pls.arch_pres x hxa, harchAt_wp]
        exact hw.arch_cs x (ha_or x hx hxa)
    · intro x hx
      rw [h6arch] at hx
      rw [harchAt6]
      by_cases hxa : x = av
      · subst hxa
        exact Nat.lt_of_le_of_lt (Nat.zero_le _) pls.c_lt
      · rw [pls.arch_pres x hxa, harchAt_wp]
        exact hw.arch_chunks_pos x (ha_or x hx hxa)
    · intro x hx
      rw [h6arch] at hx
      rw [harchAt6]
      by_cases hxa : x = av
      · subst hxa
        rw [pls.comps_eq, hsrt]
        exact (List.perm_insertionSort _ comps).nodup_iff.2 hnd
      · rw [pls.arch_pres x hxa, harchAt_wp]
        exact hw.arch_comps_nodup x (ha_or x hx hxa)
    · intro x hx k hk
      rw [h6arch] at hx
      rw [harchAt6] at hk
      rw [h6data']
      by_cases hxa : x = av
      · subst hxa
        rw [pls.comps_eq, hsrt] at hk
        exact hreg k ((List.perm_insertionSort _ comps).mem_iff.1 hk)
      · rw [pls.arch_pres x hxa, harchAt_wp] at hk
        exact hw.arch_comps_reg x (ha_or x hx hxa) k hk
    · intro x hx y hy
      rw [h6arch] at hx
      rw [harchAt6] at hy
      rw [h6dcs']
      by_cases hxa : x = av
      · subst hxa
        by_cases hyc : y = cv
        · subst hyc
          rw [hchunkAt6]
          have hrl := pls.row_le
          rw [ps.dcs_eq] at hrl
          exact hrl
        · rw [hchunk_oc y hyc]
          have hyold := pls.chunk_idx_old y hy hyc
          rw [harchAt_wp] at hyold
          exact hw.chunk_len_le av (haw_of_chunks hyold) y hyold
      · rw [hchunk_oa x y hxa]
        rw [pls.arch_pres x hxa, harchAt_wp] at hy
        exact hw.chunk_len_le x (ha_or x hx hxa) y hy
    · intro i j
      rw [h6sa']
      simp only [updf2]
      split_ifs with h
      · exact Nat.lt_trans pls.a_lt pls.len_lt
      · exact hw.sparse_arch_lt i j
  · show AddSpec w W6 comps idv
    refine
      { live_eq := ?_, id_fresh := ?_, scs_eq := ?_, cnt_grow := ?_
        id_cov := ?_, match_self := ?_, match_prev := ?_, sA_other := ?_
        data_eq := ?_ }
    · exact h6live'
    · exact ps.id_fresh
    · exact h6scs'
    · exact h6cnt'
    · exact hid_cov6
    · show world_match_archetype W6 srt = some (sparseA W6 idv)
      rw [world_match_archetype_congr v' W6 h6arch h6narch srt, hA6]
      exact pls.match_eq
    · intro a0 h
      show sparseA W6 idv = a0
      rw [hA6]
      refine pls.prev_match a0 ?_
      rw [hmatch_wp]
      exact h
    · intro z hz
      exact hAo z hz
    · exact h6data'

/-- Every reachable world satisfies the invariant. -/
theorem reachable_winv (w : World) (h : Reachable w) : WInv w := by
  induction h with
  | create dcs scs s0 hdcs hscs => exact winv_create dcs scs s0 hdcs hscs
  | add_component_type w fs _ hl ih => exact winv_add_component_type w fs ih hl
  | add_entity w comps _ hl ih => exact (add_entity_full w comps ih hl).1
  | remove_entity w e _ he ih => exact winv_remove_entity w e ih he

/-- The example worlds are reachable. -/
theorem reach_exW0 : Reachable exW0 :=
  Reachable.create 2 2 1 (by decide) (by decide)

theorem reach_exW1 : Reachable exW1 :=
  Reachable.add_component_type exW0 [1] reach_exW0
    (show exW0.all_components_data.length < 255 by decide)

theorem reach_exW2 : Reachable exW2 :=
  Reachable.add_entity exW1 [0] reach_exW1 ⟨by decide, by decide, by decide⟩

theorem reach_exW3 : Reachable exW3 :=
  Reachable.add_entity exW2 [0] reach_exW2 ⟨by decide, by decide, by decide⟩

theorem reach_exW4 : Reachable exW4 :=
  Reachable.add_entity exW3 [0] reach_exW3 ⟨by decide, by decide, by decide⟩

/-- C1 — Sparse/dense consistency: in any world reachable by legal operations,
every live entity's sparse triple `(a, c, r)` indexes a real archetype, chunk
and live row, and `archetypes[a].chunks[c].ids[r] = e`. -/
theorem claim_C1_sparse_dense (w : World) (hr : Reachable w) (e : Nat)
    (he : e ∈ w.live) :
    sparseA w e < w.archetypes.length
    ∧ sparseC w e < (archAt w (sparseA w e)).chunks.length
    ∧ sparseR w e < (chunkAt w (sparseA w e) (sparseC w e)).dense_arrays_length
    ∧ (chunkAt w (sparseA w e) (sparseC w e)).id_dense_array (sparseR w e) = e :=
  (reachable_winv w hr).fwd e he

theorem claim_C1_witness :
    0 ∈ exW2.live
    ∧ sparseR exW2 0 < (chunkAt exW2 (sparseA exW2 0) (sparseC exW2 0)).dense_arrays_length
    ∧ (chunkAt exW2 (sparseA exW2 0) (sparseC exW2 0)).id_dense_array (sparseR exW2 0) = 0 :=
  ⟨by decide, (claim_C1_sparse_dense exW2 reach_exW2 0 (by decide)).2.2.1,
   (claim_C1_sparse_dense exW2 reach_exW2 0 (by decide)).2.2.2⟩

/-- C9 — Sparse growth sufficiency: a legal `world_add_entity` call from any
reachable world grows the sparse sub-array vector (by one sub-array) exactly
when the returned id's sub-array index was out of range, after which the index
is in range and the id's `(archetype, chunk, row)` triple is written within the
bounds of the archetype table, chunk list and chunk rows. -/
theorem claim_C9_sparse_growth (w : World) (comps : List Nat) (hr : Reachable w)
    (hl : LegalAddEntity w comps) :
    (world_add_entity w comps).2 / w.sparse_array_chunk_size
        < (world_add_entity w comps).1.sparse_array_number_of_chunks
    ∧ (world_add_entity w comps).1.sparse_array_number_of_chunks
        = (if w.sparse_array_number_of_chunks ≤
              (world_add_entity w comps).2 / w.sparse_array_chunk_size
           then w.sparse_array_number_of_chunks + 1
           else w.sparse_array_number_of_chunks)
    ∧ sparseA (world_add_entity w comps).1 (world_add_entity w comps).2
        < (world_add_entity w comps).1.archetypes.length
    ∧ sparseC (world_add_entity w comps).1 (world_add_entity w comps).2
        < (archAt (world_add_entity w comps).1
            (sparseA (world_add_entity w comps).1 (world_add_entity w comps).2)).chunks.length
    ∧ sparseR (world_add_entity w comps).1 (world_add_entity w comps).2
        < (chunkAt (world_add_entity w comps).1
            (sparseA (world_add_entity w comps).1 (world_add_entity w comps).2)
            (sparseC (world_add_entity w comps).1 (world_add_entity w comps).2)).dense_arrays_length := by
  obtain ⟨hw', as⟩ := add_entity_full w comps (reachable_winv w hr) hl
  have hmem : (world_add_entity w comps).2 ∈ (world_add_entity w comps).1.live := by
    rw [as.live_eq]
    exact List.mem_cons_self _ _
  obtain ⟨h1, h2, h3, _⟩ := hw'.fwd _ hmem
  exact ⟨as.id_cov, as.cnt_grow, h1, h2, h3⟩

theorem claim_C9_witness :
    LegalAddEntity exW1 [0]
    ∧ (world_add_entity exW1 [0]).2 / exW1.sparse_array_chunk_size
        < (world_add_entity exW1 [0]).1.sparse_array_number_of_chunks :=
  ⟨⟨by decide, by decide, by decide⟩,
   (claim_C9_sparse_growth exW1 [0] reach_exW1 ⟨by decide, by decide, by decide⟩).1⟩

/-- C4 — `world_get_component_field` returns nothing exactly when the id's
sparse sub-array index is beyond the allocated range, or the archetype stored
for the id does not list the requested component, or the field index is not
below the component's registered field count — an iff that holds for every
entity id, the out-of-range guard included (ecs.c:461-463).  In a reachable
world every live entity is within the allocated sparse range, so for a live
entity only the latter two conditions can fire, and otherwise the call
returns the address coordinates `(archetype, chunk, row * field_size)` of the
field.  The C function takes a `const World *`, modelled as a pure function,
so the world is unchanged in every case by construction. -/
theorem claim_C4_get_field (w : World) (e comp f : Nat) (hr : Reachable w) :
    (world_get_component_field w e comp f = none ↔
      (w.sparse_array_number_of_chunks ≤ e / w.sparse_array_chunk_size
       ∨ comp ∉ (archAt w (sparseA w e)).components
       ∨ numFields w comp ≤ f))
    ∧ (e ∈ w.live →
        e / w.sparse_array_chunk_size < w.sparse_array_number_of_chunks)
    ∧ (e / w.sparse_array_chunk_size < w.sparse_array_number_of_chunks →
        comp ∈ (archAt w (sparseA w e)).components → f < numFields w comp →
        world_get_component_field w e comp f
          = some (sparseA w e, sparseC w e, sparseR w e * fieldSize w comp f)) := by
  refine ⟨?_, fun he => (reachable_winv w hr).live_cov e he, ?_⟩
  · by_cases hnc : w.sparse_array_number_of_chunks ≤ e / w.sparse_array_chunk_size
    · have heq : world_get_component_field w e comp f = none := by
        rw [world_get_component_field, if_pos hnc]
      rw [heq]
      exact ⟨fun _ => Or.inl hnc, fun _ => rfl⟩
    · by_cases hmem : comp ∈ (archAt w (sparseA w e)).components
      · by_cases hf : f < numFields w comp
        · have heq : world_get_component_field w e comp f
              = some (sparseA w e, sparseC w e, sparseR w e * fieldSize w comp f) := by
            rw [world_get_component_field, if_neg hnc]
            dsimp only
            rw [if_pos hmem, if_pos hf]
          rw [heq]
          constructor
          · intro h
            exact absurd h (by simp)
          · intro h
            rcases h with h | h | h
            · exact absurd h hnc
            · exact absurd hmem h
            · exact absurd hf (Nat.not_lt.2 h)
        · have heq : world_get_component_field w e comp f = none := by
            rw [world_get_component_field, if_neg hnc]
            dsimp only
            rw [if_pos hmem, if_neg hf]
          rw [heq]
          exact ⟨fun _ => Or.inr (Or.inr (Nat.not_lt.1 hf)), fun _ => rfl⟩
      · have heq : world_get_component_field w e comp f = none := by
          rw [world_get_component_field, if_neg hnc]
          dsimp only
          rw [if_neg hmem]
        rw [heq]
        exact ⟨fun _ => Or.inr (Or.inl hmem), fun _ => rfl⟩
  · intro hrange hmem hf
    rw [world_get_component_field, if_neg (Nat.not_le.2 hrange)]
    dsimp only
    rw [if_pos hmem, if_pos hf]

theorem claim_C4_witness :
    (exW2.sparse_array_number_of_chunks ≤ 99 / exW2.sparse_array_chunk_size
      ∧ world_get_component_field exW2 99 0 0 = none)
    ∧ (0 ∈ exW2.live
      ∧ world_get_component_field exW2 0 0 0
        = some (sparseA exW2 0, sparseC exW2 0, sparseR exW2 0 * fieldSize exW2 0 0)) :=
  ⟨⟨by decide,
    (claim_C4_get_field exW2 99 0 0 reach_exW2).1.2 (Or.inl (by decide))⟩,
   ⟨by decide,
    (claim_C4_get_field exW2 0 0 0 reach_exW2).2.2 (by decide) (by decide)
      (by decide)⟩⟩

/-- Both branches of `world_remove_entity` push the removed id: the id is
written at `top_index - 1` and `top_index` is decremented (ecs.c:400-401). -/
theorem remove_stack (w : World) (e : Nat) :
    (world_remove_entity w e).id_stack_ids
      = updf w.id_stack_ids (w.id_stack_top_index - 1) e
    ∧ (world_remove_entity w e).id_stack_top_index = w.id_stack_top_index - 1
    ∧ (world_remove_entity w e).id_stack_capacity = w.id_stack_capacity := by
  by_cases hcase :
      sparseR w e = (chunkAt w (sparseA w e) (sparseC w e)).dense_arrays_length - 1
  · rw [world_remove_entity_eq_last w e hcase]
    exact ⟨rfl, rfl, rfl⟩
  · rw [world_remove_entity_eq_swap w e hcase]
    exact ⟨rfl, rfl, rfl⟩

/-- A sequence of `world_remove_entity` calls, in list order. -/
def removeAll (w : World) (xs : List Nat) : World :=
  xs.foldl world_remove_entity w

/-- `n` consecutive `world_add_entity` calls with signature `comps`; returns
the final world and the list of ids in allocation order. -/
def addIds (comps : List Nat) : World → Nat → World × List Nat
  | w, 0 => (w, [])
  | w, n + 1 =>
    let p := world_add_entity w comps
    let q := addIds comps p.1 n
    (q.1, p.2 :: q.2)

/-- Stack state after a removal sequence: the top drops by the number of
removals, the capacity is untouched, positions at or above the old top are
untouched, and position `top - 1 - j` holds the `j`-th removed id. -/
theorem removeAll_stack (xs : List Nat) : ∀ w : World,
    (removeAll w xs).id_stack_top_index = w.id_stack_top_index - xs.length
    ∧ (removeAll w xs).id_stack_capacity = w.id_stack_capacity
    ∧ (xs.length ≤ w.id_stack_top_index →
        (∀ p, w.id_stack_top_index ≤ p →
          (removeAll w xs).id_stack_ids p = w.id_stack_ids p)
        ∧ (∀ j, j < xs.length →
          (removeAll w xs).id_stack_ids (w.id_stack_top_index - 1 - j)
            = xs.getD j 0)) := by
  induction xs with
  | nil =>
    intro w
    exact ⟨rfl, rfl, fun _ =>
      ⟨fun p _ => rfl, fun j hj => absurd hj (Nat.not_lt_zero j)⟩⟩
  | cons x xs ih =>
    intro w
    have hra : removeAll w (x :: xs) = removeAll (world_remove_entity w x) xs := rfl
    obtain ⟨rs1, rs2, rs3⟩ := remove_stack w x
    obtain ⟨ih1, ih2, ih3⟩ := ih (world_remove_entity w x)
    refine ⟨?_, ?_, ?_⟩
    · rw [hra, ih1, rs2]
      simp only [List.length_cons]
      omega
    · rw [hra, ih2, rs3]
    · intro hlen
      simp only [List.length_cons] at hlen
      obtain ⟨ihC, ihD⟩ := ih3 (by rw [rs2]; omega)
      constructor
      · intro p hp
        rw [hra, ihC p (by rw [rs2]; omega), rs1,
          updf_ne _ _ _ (show p ≠ w.id_stack_top_index - 1 by omega)]
      · intro j hj
        simp only [List.length_cons] at hj
        rcases j with _ | j'
        · rw [hra, ihC (w.id_stack_top_index - 1 - 0) (by rw [rs2]; omega), rs1]
          have h0 : w.id_stack_top_index - 1 - 0 = w.id_stack_top_index - 1 := by
            omega
          rw [h0, updf_self]
          rfl
        · rw [hra]
          have hpos : w.id_stack_top_index - 1 - (j' + 1)
              = (world_remove_entity w x).id_stack_top_index - 1 - j' := by
            rw [rs2]
            omega
          rw [hpos, ihD j' (by omega)]
          rfl

/-- The pop phase when the stack is not exhausted: no growth, the id at the
top is returned and the top advances. -/
theorem add_entity_pop_nogrow (w : World)
    (h : w.id_stack_top_index < w.id_stack_capacity) :
    world_add_entity_pop w =
      ({ w with
          id_stack_top_index := w.id_stack_top_index + 1
          live := w.id_stack_ids w.id_stack_top_index :: w.live
          hwm := max w.hwm (w.id_stack_top_index + 1) },
       w.id_stack_ids w.id_stack_top_index) := by
  rw [world_add_entity_pop, id_stack_grow, if_neg (Nat.not_le.2 h)]

/-- The sparse phase never touches the id stack. -/
theorem sparse_stack (v : World) (id a c r : Nat) :
    (world_add_entity_sparse v id a c r).id_stack_ids = v.id_stack_ids
    ∧ (world_add_entity_sparse v id a c r).id_stack_capacity = v.id_stack_capacity
    ∧ (world_add_entity_sparse v id a c r).id_stack_top_index
        = v.id_stack_top_index := by
  rw [sparse_phase_eq]
  exact ⟨rfl, rfl, rfl⟩

/-- The archetype phase never touches the id stack. -/
theorem place_stack (v : World) (sorted : List Nat) (id : Nat) :
    (world_add_entity_place v sorted id).1.id_stack_ids = v.id_stack_ids
    ∧ (world_add_entity_place v sorted id).1.id_stack_capacity
        = v.id_stack_capacity
    ∧ (world_add_entity_place v sorted id).1.id_stack_top_index
        = v.id_stack_top_index := by
  rcases hm : world_match_archetype v sorted with _ | a0
  · unfold world_add_entity_place
    rw [hm]
    exact ⟨rfl, rfl, rfl⟩
  · unfold world_add_entity_place
    rw [hm]
    exact ⟨rfl, rfl, rfl⟩

/-- The id stack after `world_add_entity` is exactly the pop phase's stack. -/
theorem add_entity_stack (w : World) (comps : List Nat) :
    (world_add_entity w comps).1.id_stack_ids
        = (world_add_entity_pop w).1.id_stack_ids
    ∧ (world_add_entity w comps).1.id_stack_capacity
        = (world_add_entity_pop w).1.id_stack_capacity
    ∧ (world_add_entity w comps).1.id_stack_top_index
        = (world_add_entity_pop w).1.id_stack_top_index
    ∧ (world_add_entity w comps).2 = (world_add_entity_pop w).2 := by
  obtain ⟨p1, p2, p3⟩ := place_stack (world_add_entity_pop w).1
    (List.insertionSort (· ≤ ·) comps) (world_add_entity_pop w).2
  obtain ⟨s1, s2, s3⟩ := sparse_stack
    (world_add_entity_place (world_add_entity_pop w).1
      (List.insertionSort (· ≤ ·) comps) (world_add_entity_pop w).2).1
    (world_add_entity_pop w).2
    (world_add_entity_place (world_add_entity_pop w).1
      (List.insertionSort (· ≤ ·) comps) (world_add_entity_pop w).2).2.1
    (world_add_entity_place (world_add_entity_pop w).1
      (List.insertionSort (· ≤ ·) comps) (world_add_entity_pop w).2).2.2.1
    (world_add_entity_place (world_add_entity_pop w).1
      (List.insertionSort (· ≤ ·) comps) (world_add_entity_pop w).2).2.2.2
  have h0 : (world_add_entity w comps).1
      = world_add_entity_sparse
        (world_add_entity_place (world_add_entity_pop w).1
          (List.insertionSort (· ≤ ·) comps) (world_add_entity_pop w).2).1
        (world_add_entity_pop w).2
        (world_add_entity_place (world_add_entity_pop w).1
          (List.insertionSort (· ≤ ·) comps) (world_add_entity_pop w).2).2.1
        (world_add_entity_place (world_add_entity_pop w).1
          (List.insertionSort (· ≤ ·) comps) (world_add_entity_pop w).2).2.2.1
        (world_add_entity_place (world_add_entity_pop w).1
          (List.insertionSort (· ≤ ·) comps) (world_add_entity_pop w).2).2.2.2 := rfl
  refine ⟨?_, ?_, ?_, rfl⟩
  · rw [h0, s1, p1]
  · rw [h0, s2, p2]
  · rw [h0, s3, p3]

/-- `n` growth-free allocations return the stack entries at
`top, top+1, …, top+n-1` in order. -/
theorem addIds_stack (comps : List Nat) (n : Nat) : ∀ w : World,
    w.id_stack_top_index + n ≤ w.id_stack_capacity →
    (addIds comps w n).2
      = (List.range n).map (fun i => w.id_stack_ids (w.id_stack_top_index + i)) := by
  induction n with
  | zero => intro w _; rfl
  | succ n ih =>
    intro w h
    have hlt : w.id_stack_top_index < w.id_stack_capacity := by omega
    obtain ⟨a1, a2, a3, a4⟩ := add_entity_stack w comps
    have hpop := add_entity_pop_nogrow w hlt
    have hids : (world_add_entity w comps).1.id_stack_ids = w.id_stack_ids := by
      rw [a1, hpop]
    have hcap : (world_add_entity w comps).1.id_stack_capacity
        = w.id_stack_capacity := by
      rw [a2, hpop]
    have htop : (world_add_entity w comps).1.id_stack_top_index
        = w.id_stack_top_index + 1 := by
      rw [a3, hpop]
    have hret : (world_add_entity w comps).2
        = w.id_stack_ids w.id_stack_top_index := by
      rw [a4, hpop]
    have hstep : (addIds comps w (n + 1)).2
        = (world_add_entity w comps).2
            :: (addIds comps (world_add_entity w comps).1 n).2 := rfl
    rw [hstep, hret, ih (world_add_entity w comps).1 (by rw [htop, hcap]; omega)]
    rw [hids, htop]
    rw [List.range_succ_eq_map, List.map_cons, List.map_map]
    congr 1
    exact List.map_congr_left (fun i _ => congrArg w.id_stack_ids (by omega))

/-- The pop phase when the stack is exhausted: the capacity doubles, the new
positions are seeded with their own indices, and the old top (the next fresh
id value) is returned. -/
theorem add_entity_grow (w : World) (comps : List Nat) (hw : WInv w)
    (hexh : w.id_stack_capacity ≤ w.id_stack_top_index) :
    (world_add_entity w comps).1.id_stack_capacity = 2 * w.id_stack_capacity
    ∧ (world_add_entity w comps).2 = w.id_stack_top_index
    ∧ ∀ p, w.id_stack_top_index ≤ p → p < 2 * w.id_stack_capacity →
        (world_add_entity w comps).1.id_stack_ids p = p := by
  obtain ⟨a1, a2, a3, a4⟩ := add_entity_stack w comps
  have hgeq : id_stack_grow w =
      { w with
          id_stack_capacity := 2 * w.id_stack_capacity
          id_stack_ids := fun i =>
            if w.id_stack_top_index ≤ i ∧ i < 2 * w.id_stack_capacity then i
            else w.id_stack_ids i } := by
    rw [id_stack_grow, if_pos hexh]
  have hlt2 : w.id_stack_top_index < 2 * w.id_stack_capacity := by
    have h1 := hw.cap_pos
    have h2 := hw.top_le_hwm
    have h3 := hw.hwm_le_cap
    omega
  have hid0 : (if w.id_stack_top_index ≤ w.id_stack_top_index
      ∧ w.id_stack_top_index < 2 * w.id_stack_capacity then w.id_stack_top_index
      else w.id_stack_ids w.id_stack_top_index) = w.id_stack_top_index :=
    if_pos ⟨Nat.le_refl _, hlt2⟩
  have hpope : world_add_entity_pop w =
      ({ w with
          id_stack_capacity := 2 * w.id_stack_capacity
          id_stack_ids := fun i =>
            if w.id_stack_top_index ≤ i ∧ i < 2 * w.id_stack_capacity then i
            else w.id_stack_ids i
          id_stack_top_index := w.id_stack_top_index + 1
          live := w.id_stack_top_index :: w.live
          hwm := max w.hwm (w.id_stack_top_index + 1) },
       w.id_stack_top_index) := by
    rw [world_add_entity_pop, hgeq]
    simp only [hid0]
  refine ⟨?_, ?_, ?_⟩
  · rw [a2, hpope]
  · rw [a4, hpope]
  · intro p hp1 hp2
    rw [a1, hpope]
    show (if w.id_stack_top_index ≤ p ∧ p < 2 * w.id_stack_capacity then p
        else w.id_stack_ids p) = p
    exact if_pos ⟨hp1, hp2⟩

/-- C6 — Id allocator round trip: the free-id store is a LIFO stack.  Freeing
the ids `xs` in order (via `world_remove_entity`) and then allocating
`xs.length` ids (via `world_add_entity`) returns exactly `xs.reverse`; and an
allocation from an exhausted stack doubles the capacity, seeds the new range
with its own id values, and returns the next contiguous id value (the old
top). -/
theorem claim_C6_lifo (w u : World) (xs comps comps2 : List Nat)
    (hlen : xs.length ≤ w.id_stack_top_index)
    (hcap : w.id_stack_top_index ≤ w.id_stack_capacity)
    (hu : WInv u) (hexh : u.id_stack_capacity ≤ u.id_stack_top_index) :
    (addIds comps (removeAll w xs) xs.length).2 = xs.reverse
    ∧ (world_add_entity u comps2).1.id_stack_capacity = 2 * u.id_stack_capacity
    ∧ (world_add_entity u comps2).2 = u.id_stack_top_index
    ∧ (∀ p, u.id_stack_top_index ≤ p → p < 2 * u.id_stack_capacity →
        (world_add_entity u comps2).1.id_stack_ids p = p) := by
  obtain ⟨g1, g2, g3⟩ := add_entity_grow u comps2 hu hexh
  refine ⟨?_, g1, g2, g3⟩
  obtain ⟨r1, r2, r3⟩ := removeAll_stack xs w
  obtain ⟨rC, rD⟩ := r3 hlen
  rw [addIds_stack comps xs.length (removeAll w xs) (by rw [r1, r2]; omega)]
  apply List.ext_getElem
  · simp
  · intro i h1 h2
    simp only [List.getElem_map, List.getElem_range, List.getElem_reverse]
    have hi : i < xs.length := by simpa using h2
    have hj : xs.length - 1 - i < xs.length := by omega
    rw [← List.getD_eq_getElem xs 0 hj, r1]
    have hpos : w.id_stack_top_index - xs.length + i
        = w.id_stack_top_index - 1 - (xs.length - 1 - i) := by omega
    rw [hpos]
    exact rD (xs.length - 1 - i) (by omega)

theorem claim_C6_witness :
    (([1, 0] : List Nat).length ≤ exW4.id_stack_top_index
      ∧ exW3.id_stack_capacity ≤ exW3.id_stack_top_index)
    ∧ (addIds [0] (removeAll exW4 [1, 0]) ([1, 0] : List Nat).length).2 = [0, 1]
    ∧ (world_add_entity exW3 []).1.id_stack_capacity
        = 2 * exW3.id_stack_capacity := by
  have h := claim_C6_lifo exW4 exW3 [1, 0] [0] [] (by decide) (by decide)
    (reachable_winv exW3 reach_exW3) (by decide)
  exact ⟨⟨by decide, by decide⟩, h.1, h.2.1⟩

/-- `n` consecutive `world_add_component_type` calls with empty field lists. -/
def regN (w : World) : Nat → World
  | 0 => w
  | n + 1 => (world_add_component_type (regN w n) []).1

/-- The 8-bit component counter after `n` registrations from a counter below
256. -/
theorem regN_counter (w : World) (hlt : w.number_of_components < 256) (n : Nat) :
    (regN w n).number_of_components = (w.number_of_components + n) % 256 := by
  induction n with
  | zero =>
    show w.number_of_components = _
    rw [Nat.add_zero, Nat.mod_eq_of_lt hlt]
  | succ n ih =>
    show ((regN w n).number_of_components + 1) % 256 = _
    rw [ih]
    omega

/-- C10 — 8-bit id limit: `world_add_component_type` returns the current
counter and advances it modulo 256, so `n` registrations from a fresh world
leave the counter at `n % 256` and the 257th registration returns id 0 again;
and every archetype id stored in the sparse index of a reachable world is
below 256. -/
theorem claim_C10_eight_bit (w : World) (fs : List Nat) (n dcs scs s0 : Nat)
    (hr : Reachable w) :
    (world_add_component_type w fs).2 = w.number_of_components
    ∧ (world_add_component_type w fs).1.number_of_components
        = (w.number_of_components + 1) % 256
    ∧ (regN (world_create dcs scs s0) n).number_of_components = n % 256
    ∧ (world_add_component_type (regN (world_create dcs scs s0) 256) fs).2 = 0
    ∧ (∀ i j, w.sparse_archetypes i j < 256) := by
  have h256 := regN_counter (world_create dcs scs s0) (by norm_num [world_create]) 256
  refine ⟨rfl, rfl, ?_, ?_, (reachable_winv w hr).sparse_arch_lt⟩
  · rw [regN_counter (world_create dcs scs s0) (by norm_num [world_create]) n]
    show (0 + n) % 256 = n % 256
    omega
  · show (regN (world_create dcs scs s0) 256).number_of_components = 0
    rw [h256]
    show (0 + 256) % 256 = 0
    omega

theorem claim_C10_witness :
    Reachable exW2
    ∧ (world_add_component_type (regN (world_create 2 2 1) 256) [3]).2 = 0
    ∧ (regN (world_create 2 2 1) 300).number_of_components = 300 % 256 :=
  ⟨reach_exW2, (claim_C10_eight_bit exW2 [3] 300 2 2 1 reach_exW2).2.2.2.1,
   (claim_C10_eight_bit exW2 [3] 300 2 2 1 reach_exW2).2.2.1⟩

/-- A second registered component type, for signatures of length two. -/
def exW1b : World := (world_add_component_type exW1 [1]).1

theorem reach_exW1b : Reachable exW1b :=
  Reachable.add_component_type exW1 [1] reach_exW1
    (show exW1.all_components_data.length < 255 by decide)

/-- C5 — Order-agnostic signatures: from any reachable world, adding one
entity with a duplicate-free component list and then another with any
permutation of it stores the same archetype id in both entities' sparse
entries: the scratch copy is canonicalized by an ascending sort, matching
compares sorted lists for equality, and a new archetype is created only when
no equal sorted list exists. -/
theorem claim_C5_order_agnostic (w : World) (c1 c2 : List Nat)
    (hr : Reachable w) (hperm : c1.Perm c2) (hl1 : LegalAddEntity w c1) :
    sparseA (world_add_entity (world_add_entity w c1).1 c2).1
        (world_add_entity w c1).2
      = sparseA (world_add_entity (world_add_entity w c1).1 c2).1
        (world_add_entity (world_add_entity w c1).1 c2).2 := by
  have hs : List.insertionSort (· ≤ ·) c1 = List.insertionSort (· ≤ ·) c2 :=
    List.eq_of_perm_of_sorted
      ((List.perm_insertionSort _ c1).trans
        (hperm.trans (List.perm_insertionSort _ c2).symm))
      (List.sorted_insertionSort _ c1)
      (List.sorted_insertionSort _ c2)
  have hw := reachable_winv w hr
  obtain ⟨hw1, as1⟩ := add_entity_full w c1 hw hl1
  have hl2 : LegalAddEntity (world_add_entity w c1).1 c2 := by
    refine ⟨hperm.nodup_iff.1 hl1.1, ?_, ?_⟩
    · intro k hk
      rw [as1.data_eq]
      exact hl1.2.1 k (hperm.mem_iff.2 hk)
    · intro hnone
      rw [← hs, as1.match_self] at hnone
      simp at hnone
  obtain ⟨hw2, as2⟩ := add_entity_full (world_add_entity w c1).1 c2 hw1 hl2
  have hid1mem : (world_add_entity w c1).2 ∈ (world_add_entity w c1).1.live := by
    rw [as1.live_eq]
    exact List.mem_cons_self _ _
  have hne : (world_add_entity w c1).2
      ≠ (world_add_entity (world_add_entity w c1).1 c2).2 := by
    intro h
    exact as2.id_fresh (h ▸ hid1mem)
  have hm1 : world_match_archetype (world_add_entity w c1).1
      (List.insertionSort (· ≤ ·) c2)
      = some (sparseA (world_add_entity w c1).1 (world_add_entity w c1).2) := by
    rw [← hs]
    exact as1.match_self
  have h2 := as2.match_prev _ hm1
  rw [as2.sA_other _ hne, h2]

theorem claim_C5_witness :
    (([0, 1] : List Nat).Perm [1, 0] ∧ LegalAddEntity exW1b [0, 1])
    ∧ sparseA (world_add_entity (world_add_entity exW1b [0, 1]).1 [1, 0]).1
        (world_add_entity exW1b [0, 1]).2
      = sparseA (world_add_entity (world_add_entity exW1b [0, 1]).1 [1, 0]).1
        (world_add_entity (world_add_entity exW1b [0, 1]).1 [1, 0]).2 :=
  ⟨⟨by decide, by decide, by decide, by decide⟩,
   claim_C5_order_agnostic exW1b [0, 1] [1, 0] reach_exW1b (by decide)
     ⟨by decide, by decide, by decide⟩⟩

/-- Byte blocks of distinct rows within one field column are disjoint. -/
theorem block_disjoint {r1 r2 fs b : Nat} (hne : r1 ≠ r2) (hb : b < fs) :
    ¬ (r2 * fs ≤ r1 * fs + b ∧ r1 * fs + b < r2 * fs + fs) := by
  rintro ⟨h1, h2⟩
  rcases Nat.lt_or_ge r1 r2 with h | h
  · have hle : r1 * fs + fs ≤ r2 * fs := by
      calc r1 * fs + fs = (r1 + 1) * fs := by ring
        _ ≤ r2 * fs := Nat.mul_le_mul_right _ (Nat.succ_le_of_lt h)
    omega
  · have h' : r2 + 1 ≤ r1 := by omega
    have hle : r2 * fs + fs ≤ r1 * fs := by
      calc r2 * fs + fs = (r2 + 1) * fs := by ring
        _ ≤ r1 * fs := Nat.mul_le_mul_right _ h'
    omega

/-- C8 — Frame property of removal: removing one live entity leaves every
byte of every registered field of every component carried by any other live
entity unchanged, as read through that entity's (possibly updated)
sparse-index location. -/
theorem claim_C8_frame (w : World) (e y comp f b : Nat) (hr : Reachable w)
    (he : e ∈ w.live) (hy : y ∈ w.live) (hne : y ≠ e)
    (hcomp : comp ∈ (archAt w (sparseA w y)).components)
    (hf : f < numFields w comp) (hb : b < fieldSize w comp f) :
    (chunkAt (world_remove_entity w e) (sparseA (world_remove_entity w e) y)
        (sparseC (world_remove_entity w e) y)).component_field_arrays comp f
      (sparseR (world_remove_entity w e) y * fieldSize w comp f + b)
    = (chunkAt w (sparseA w y) (sparseC w y)).component_field_arrays comp f
      (sparseR w y * fieldSize w comp f + b) := by
  have hw := reachable_winv w hr
  obtain ⟨haE, hcE, hrE, hidE⟩ := hw.fwd e he
  obtain ⟨haY, hcY, hrY, hidY⟩ := hw.fwd y hy
  by_cases hcase : sparseR w e
      = (chunkAt w (sparseA w e) (sparseC w e)).dense_arrays_length - 1
  · have heq := world_remove_entity_eq_last w e hcase
    have hsA : sparseA (world_remove_entity w e) y = sparseA w y := by rw [heq]; rfl
    have hsC : sparseC (world_remove_entity w e) y = sparseC w y := by rw [heq]; rfl
    have hsR : sparseR (world_remove_entity w e) y = sparseR w y := by rw [heq]; rfl
    obtain ⟨hC1, hC2, _, _⟩ := chunkAt_set w (world_remove_entity w e)
      (sparseA w e) (sparseC w e)
      { chunkAt w (sparseA w e) (sparseC w e) with
          dense_arrays_length :=
            (chunkAt w (sparseA w e) (sparseC w e)).dense_arrays_length - 1 }
      (by rw [heq]) haE
    rw [hsA, hsC, hsR]
    by_cases hsame : sparseA w y = sparseA w e ∧ sparseC w y = sparseC w e
    · obtain ⟨h1, h2⟩ := hsame
      rw [h1, h2, hC1, getD_set_self _ _ _ _ hcE]
    · rw [hC2 _ _ hsame]
  · have heq := world_remove_entity_eq_swap w e hcase
    have hlast : (chunkAt w (sparseA w e) (sparseC w e)).dense_arrays_length - 1
        < (chunkAt w (sparseA w e) (sparseC w e)).dense_arrays_length := by omega
    obtain ⟨hzl, hz2, hz3, hz4⟩ := hw.bwd (sparseA w e) haE (sparseC w e) hcE _ hlast
    have hsA : sparseA (world_remove_entity w e) y = sparseA w y := by rw [heq]; rfl
    have hsC : sparseC (world_remove_entity w e) y = sparseC w y := by rw [heq]; rfl
    obtain ⟨hC1, hC2, _, _⟩ := chunkAt_set w (world_remove_entity w e)
      (sparseA w e) (sparseC w e)
      { id_dense_array :=
          updf (chunkAt w (sparseA w e) (sparseC w e)).id_dense_array
            (sparseR w e)
            ((chunkAt w (sparseA w e) (sparseC w e)).id_dense_array
              ((chunkAt w (sparseA w e) (sparseC w e)).dense_arrays_length - 1))
        component_field_arrays :=
          copy_components (archAt w (sparseA w e)).components
            w.all_components_data (sparseR w e)
            ((chunkAt w (sparseA w e) (sparseC w e)).dense_arrays_length - 1)
            (chunkAt w (sparseA w e) (sparseC w e)).component_field_arrays
        dense_arrays_length :=
          (chunkAt w (sparseA w e) (sparseC w e)).dense_arrays_length - 1 }
      (by rw [heq]) haE
    by_cases hyz : y = (chunkAt w (sparseA w e) (sparseC w e)).id_dense_array
        ((chunkAt w (sparseA w e) (sparseC w e)).dense_arrays_length - 1)
    · have haYE : sparseA w y = sparseA w e := by rw [hyz]; exact hz2
      have hcYE : sparseC w y = sparseC w e := by rw [hyz]; exact hz3
      have hrYL : sparseR w y
          = (chunkAt w (sparseA w e) (sparseC w e)).dense_arrays_length - 1 := by
        rw [hyz]; exact hz4
      have hsR : sparseR (world_remove_entity w e) y = sparseR w e := by
        rw [sparseR, heq]
        dsimp only
        rw [hyz]
        exact updf2_self _ _ _ _
      have hcomp' : comp ∈ (archAt w (sparseA w e)).components := by
        rw [← haYE]; exact hcomp
      rw [hsA, hsC, hsR, haYE, hcYE, hrYL, hC1, getD_set_self _ _ _ _ hcE]
      show copy_components _ _ _ _ _ comp f _ = _
      rw [copy_components, if_pos hcomp', copy_fields]
      simp only [fieldSize] at hb ⊢
      rw [if_pos (show f <
        ((w.all_components_data.getD comp ⟨[]⟩).field_sizes).length from hf)]
      rw [copy_field]
      rw [if_pos ⟨by omega, by omega⟩]
      rw [Nat.add_sub_cancel_left]
    · have hsR : sparseR (world_remove_entity w e) y = sparseR w y := by
        rw [sparseR, heq]
        dsimp only
        refine updf2_ne _ _ _ _ ?_
        rintro ⟨h1, h2⟩
        exact hyz (slot_inj h1 h2)
      rw [hsA, hsC, hsR]
      by_cases hsame : sparseA w y = sparseA w e ∧ sparseC w y = sparseC w e
      · obtain ⟨h1, h2⟩ := hsame
        have hrne : sparseR w y ≠ sparseR w e := by
          intro hr'
          apply hne
          rw [← hidY, ← hidE, h1, h2, hr']
        have hcomp' : comp ∈ (archAt w (sparseA w e)).components := by
          rw [← h1]; exact hcomp
        rw [h1, h2, hC1, getD_set_self _ _ _ _ hcE]
        show copy_components _ _ _ _ _ comp f _ = _
        rw [copy_components, if_pos hcomp', copy_fields]
        simp only [fieldSize] at hb ⊢
        rw [if_pos (show f <
          ((w.all_components_data.getD comp ⟨[]⟩).field_sizes).length from hf)]
        rw [copy_field]
        rw [if_neg (block_disjoint hrne hb)]
      · rw [hC2 _ _ hsame]

theorem claim_C8_witness :
    (0 ∈ exW4.live ∧ 2 ∈ exW4.live ∧ (2 : Nat) ≠ 0)
    ∧ (chunkAt (world_remove_entity exW4 0) (sparseA (world_remove_entity exW4 0) 2)
        (sparseC (world_remove_entity exW4 0) 2)).component_field_arrays 0 0
      (sparseR (world_remove_entity exW4 0) 2 * fieldSize exW4 0 0 + 0)
    = (chunkAt exW4 (sparseA exW4 2) (sparseC exW4 2)).component_field_arrays 0 0
      (sparseR exW4 2 * fieldSize exW4 0 0 + 0) :=
  ⟨⟨by decide, by decide, by decide⟩,
   claim_C8_frame exW4 0 2 0 0 0 reach_exW4 (by decide) (by decide) (by decide)
     (by decide) (by decide) (by decide)⟩

/-- The archetype filter of the iterator, unfolded: it accepts exactly when
the request is not longer than the signature and every requested id occurs in
the signature. -/
theorem does_archetype_have_components_iff (ar : Archetype) (R : List Nat) :
    does_archetype_have_components ar R = true ↔
      (¬ ar.components.length < R.length ∧ ∀ k ∈ R, k ∈ ar.components) := by
  rw [does_archetype_have_components]
  by_cases hlt : ar.components.length < R.length
  · rw [if_pos hlt]
    constructor
    · intro h
      exact absurd h (by simp)
    · rintro ⟨h1, _⟩
      exact absurd hlt h1
  · rw [if_neg hlt]
    rw [List.all_eq_true]
    constructor
    · intro h
      refine ⟨hlt, fun k hk => ?_⟩
      simpa using h k hk
    · rintro ⟨_, h2⟩
      intro k hk
      simpa using h2 k hk

/-- For a duplicate-free request the length guard is subsumed by the superset
test, so the filter decides exactly set-superset. -/
theorem does_archetype_have_components_nodup (ar : Archetype) (R : List Nat)
    (hnd : R.Nodup) :
    does_archetype_have_components ar R = true ↔ ∀ k ∈ R, k ∈ ar.components := by
  rw [does_archetype_have_components_iff]
  constructor
  · exact fun h => h.2
  · intro h
    refine ⟨Nat.not_lt.2 ?_, h⟩
    exact List.Subperm.length_le (List.subperm_of_subset hnd (fun k hk => h k hk))

/-- The ids listed under one archetype of an invariant world are exactly the
live entities whose sparse archetype entry is that archetype's index. -/
theorem archIds_mem (w : World) (hw : WInv w) (a : Nat)
    (ha : a < w.archetypes.length) (z : Nat) :
    z ∈ archIds (archAt w a) ↔ (z ∈ w.live ∧ sparseA w z = a) := by
  constructor
  · intro hz
    rw [archIds] at hz
    rcases List.mem_flatMap.1 hz with ⟨ch, hch, hzch⟩
    obtain ⟨c, hc, hceq⟩ := List.getElem_of_mem hch
    have hch2 : chunkAt w a c = ch := by
      rw [chunkAt, List.getD_eq_getElem _ _ hc, hceq]
    rw [chunkIds] at hzch
    rcases List.mem_map.1 hzch with ⟨i, hi, hieq⟩
    rw [List.mem_range] at hi
    obtain ⟨hb1, hb2, _, _⟩ := hw.bwd a ha c hc i (by rw [hch2]; exact hi)
    rw [hch2, hieq] at hb1 hb2
    exact ⟨hb1, hb2⟩
  · rintro ⟨hzl, hza⟩
    obtain ⟨f1, f2, f3, f4⟩ := hw.fwd z hzl
    rw [hza] at f2 f3 f4
    rw [archIds]
    refine List.mem_flatMap.2 ⟨chunkAt w a (sparseC w z), ?_, ?_⟩
    · rw [chunkAt, List.getD_eq_getElem _ _ f2]
      exact List.getElem_mem _
    · rw [chunkIds]
      exact List.mem_map.2 ⟨sparseR w z, List.mem_range.2 f3, f4⟩

/-- The ids listed under one archetype of an invariant world are pairwise
distinct. -/
theorem archIds_nodup (w : World) (hw : WInv w) (a : Nat)
    (ha : a < w.archetypes.length) : (archIds (archAt w a)).Nodup := by
  rw [archIds, List.nodup_flatMap]
  constructor
  · intro ch hch
    obtain ⟨c, hc, hceq⟩ := List.getElem_of_mem hch
    have hch2 : chunkAt w a c = ch := by
      rw [chunkAt, List.getD_eq_getElem _ _ hc, hceq]
    rw [← hch2, chunkIds]
    refine List.Nodup.map_on ?_ (List.nodup_range _)
    intro i hi j hj hij
    rw [List.mem_range] at hi hj
    have h1 := (hw.bwd a ha c hc i hi).2.2.2
    have h2 := (hw.bwd a ha c hc j hj).2.2.2
    rw [hij] at h1
    omega
  · rw [List.pairwise_iff_getElem]
    intro c1 c2 hc1 hc2 hcc
    intro z hz1 hz2
    have hch1 : chunkAt w a c1 = (archAt w a).chunks[c1] := by
      rw [chunkAt, List.getD_eq_getElem _ _ hc1]
    have hch2 : chunkAt w a c2 = (archAt w a).chunks[c2] := by
      rw [chunkAt, List.getD_eq_getElem _ _ hc2]
    rw [← hch1, chunkIds] at hz1
    rw [← hch2, chunkIds] at hz2
    rcases List.mem_map.1 hz1 with ⟨i, hi, hieq⟩
    rcases List.mem_map.1 hz2 with ⟨j, hj, hjeq⟩
    rw [List.mem_range] at hi hj
    have h1 := (hw.bwd a ha c1 hc1 i hi).2.2.1
    have h2 := (hw.bwd a ha c2 hc2 j hj).2.2.1
    rw [hieq] at h1
    rw [hjeq] at h2
    omega

/-- C3 (amended: the request list must be duplicate-free — see the
counterexample for why a duplicated request breaks the original claim) —
Iterator coverage and ordering: the iterator's chunk snapshot is the
concatenation, in archetype-id order and chunk-index order, of the chunks of
exactly those archetypes passing the superset test; for a duplicate-free
request the test decides set-superset of the signature; and the multiset of
entity ids visible through the snapshot equals the multiset of live entities
whose archetype's component set contains the request. -/
theorem claim_C3_iterator (w : World) (R : List Nat) (hr : Reachable w)
    (hnd : R.Nodup) :
    (∀ a, a < w.number_of_archetypes →
      (does_archetype_have_components (archAt w a) R = true
        ↔ ∀ k ∈ R, k ∈ (archAt w a).components))
    ∧ (world_get_component_iterator w R).chunk_lengths
        = ((w.archetypes.take w.number_of_archetypes).filter
            (fun ar => does_archetype_have_components ar R)).flatMap
          (fun ar => ar.chunks.map (fun ch => ch.dense_arrays_length))
    ∧ (visibleIds w R).Perm
        (w.live.filter (fun z =>
          decide (∀ k ∈ R, k ∈ (archAt w (sparseA w z)).components))) := by
  have hw := reachable_winv w hr
  have htake : w.archetypes.take w.number_of_archetypes = w.archetypes := by
    rw [hw.arch_count]
    exact List.take_length _
  refine ⟨fun a _ => does_archetype_have_components_nodup _ R hnd, rfl, ?_⟩
  have hvis : visibleIds w R
      = (w.archetypes.filter
          (fun ar => does_archetype_have_components ar R)).flatMap archIds := by
    rw [visibleIds, htake]
  have hnodupV : (visibleIds w R).Nodup := by
    rw [hvis, List.nodup_flatMap]
    constructor
    · intro ar har
      obtain ⟨a, ha, haeq⟩ := List.getElem_of_mem (List.mem_filter.1 har).1
      have hAa : archAt w a = ar := by
        rw [archAt, List.getD_eq_getElem _ _ ha, haeq]
      rw [← hAa]
      exact archIds_nodup w hw a ha
    · refine List.Pairwise.filter _ ?_
      rw [List.pairwise_iff_getElem]
      intro i j hi hj hij
      intro z hzi hzj
      have hAi : archAt w i = w.archetypes[i] := by
        rw [archAt, List.getD_eq_getElem _ _ hi]
      have hAj : archAt w j = w.archetypes[j] := by
        rw [archAt, List.getD_eq_getElem _ _ hj]
      rw [← hAi] at hzi
      rw [← hAj] at hzj
      have h1 := ((archIds_mem w hw i hi z).1 hzi).2
      have h2 := ((archIds_mem w hw j hj z).1 hzj).2
      omega
  have hnodupF : (w.live.filter (fun z =>
      decide (∀ k ∈ R, k ∈ (archAt w (sparseA w z)).components))).Nodup :=
    hw.live_nodup.filter _
  refine (List.perm_ext_iff_of_nodup hnodupV hnodupF).2 ?_
  intro z
  rw [List.mem_filter, hvis]
  constructor
  · intro hz
    rcases List.mem_flatMap.1 hz with ⟨ar, har, hzar⟩
    obtain ⟨harm, hart⟩ := List.mem_filter.1 har
    obtain ⟨a, ha, haeq⟩ := List.getElem_of_mem harm
    have hAa : archAt w a = ar := by
      rw [archAt, List.getD_eq_getElem _ _ ha, haeq]
    rw [← hAa] at hzar
    obtain ⟨hzl, hza⟩ := (archIds_mem w hw a ha z).1 hzar
    refine ⟨hzl, ?_⟩
    rw [decide_eq_true_eq, hza, hAa]
    exact (does_archetype_have_components_nodup ar R hnd).1 hart
  · rintro ⟨hzl, hzt⟩
    rw [decide_eq_true_eq] at hzt
    obtain ⟨f1, _, _, _⟩ := hw.fwd z hzl
    refine List.mem_flatMap.2 ⟨archAt w (sparseA w z), ?_,
      (archIds_mem w hw _ f1 z).2 ⟨hzl, rfl⟩⟩
    rw [List.mem_filter]
    refine ⟨?_, (does_archetype_have_components_nodup _ R hnd).2 hzt⟩
    rw [archAt, List.getD_eq_getElem _ _ f1]
    exact List.getElem_mem _

theorem claim_C3_counterexample :
    ¬ ((visibleIds exW2 [0, 0]).Perm
        (exW2.live.filter (fun z =>
          decide (∀ k ∈ ([0, 0] : List Nat),
            k ∈ (archAt exW2 (sparseA exW2 z)).components)))) := by
  decide

theorem claim_C3_witness :
    ([0] : List Nat).Nodup
    ∧ (visibleIds exW2 [0]).Perm
        (exW2.live.filter (fun z =>
          decide (∀ k ∈ ([0] : List Nat),
            k ∈ (archAt exW2 (sparseA exW2 z)).components))) :=
  ⟨by decide, (claim_C3_iterator exW2 [0] reach_exW2 (by decide)).2.2⟩
